import Mathlib

/-!
# E-wallet transaction listing: a verification development

A shallow embedding of the transaction-listing path of the e-wallet REST API
(`handler/transaction.handler.go`, `usecase/transaction.usecase.go`,
`repository/transaction.repository.go`) together with the properties proved
about it.

Conventions of the embedding:

* Go `int` is the 64-bit two's-complement integer; values are `Int` and the
  arithmetic operators wrap with `wrapInt64`.
* Go `float64` values are the type `F64`: an exact rational for a finite
  value, or one of the three special values. Arithmetic rounds to nearest,
  ties to even, on the binary64 grid (53-bit significand, least exponent
  `-1074`).
* A conversion from `float64` to `int` whose value does not fit is
  implementation-dependent in Go; the embedding takes the platform's choice
  as the parameter `implDep`.
-/

namespace EWallet

/-! ## Machine integers -/

/-- Least value of Go's 64-bit `int`. -/
def minInt64 : Int := -(2 ^ 63)

/-- Greatest value of Go's 64-bit `int`. -/
def maxInt64 : Int := 2 ^ 63 - 1

/-- Two's-complement wrap-around of an integer result into 64 bits. -/
def wrapInt64 (x : Int) : Int := (x + 2 ^ 63) % 2 ^ 64 - 2 ^ 63

/-! ## binary64 floating point -/

/-- Values of Go's `float64`: a finite value (kept as the exact rational it
denotes) or a special value. -/
inductive F64 where
  | fin (q : ℚ)
  | posInf
  | negInf
  | nan
  deriving DecidableEq

/-- Round a rational to the nearest integer, ties to the even one. -/
def roundHalfEven (q : ℚ) : ℤ :=
  if q - ⌊q⌋ < 1 / 2 then ⌊q⌋
  else if 1 / 2 < q - ⌊q⌋ then ⌊q⌋ + 1
  else if ⌊q⌋ % 2 = 0 then ⌊q⌋ else ⌊q⌋ + 1

/-- Exponent of the unit in the last place of the binary64 interval holding
`q`: the significand has 53 bits, and exponents stop at `-1074`. -/
def f64Exp (q : ℚ) : ℤ := max (Int.log 2 |q| - 52) (-1074)

/-- Round a rational to the binary64 grid (exponent range unbounded above). -/
def roundF64 (q : ℚ) : ℚ := roundHalfEven (q / 2 ^ f64Exp q) * 2 ^ f64Exp q

/-- Round a rational to a `float64`, overflowing to an infinity. -/
def F64.ofRat (q : ℚ) : F64 :=
  if (2 : ℚ) ^ (1024 : ℕ) ≤ |roundF64 q| then (if 0 < q then F64.posInf else F64.negInf)
  else F64.fin (roundF64 q)

/-- Go's conversion `float64(n)` of an `int`. -/
def F64.ofInt (n : Int) : F64 := F64.ofRat n

/-- Go's `x / y` on `float64`. A zero divisor is the positive zero, the only
zero a conversion from `int` produces. -/
def F64.div : F64 → F64 → F64
  | F64.nan, _ => F64.nan
  | _, F64.nan => F64.nan
  | F64.fin x, F64.fin y =>
    if y = 0 then (if 0 < x then F64.posInf else if x < 0 then F64.negInf else F64.nan)
    else F64.ofRat (x / y)
  | F64.fin _, F64.posInf => F64.fin 0
  | F64.fin _, F64.negInf => F64.fin 0
  | F64.posInf, F64.fin y => if y < 0 then F64.negInf else F64.posInf
  | F64.negInf, F64.fin y => if y < 0 then F64.posInf else F64.negInf
  | F64.posInf, F64.posInf => F64.nan
  | F64.posInf, F64.negInf => F64.nan
  | F64.negInf, F64.posInf => F64.nan
  | F64.negInf, F64.negInf => F64.nan

/-- Go's `math.Ceil`. -/
def F64.ceil : F64 → F64
  | F64.fin q => F64.fin ⌈q⌉
  | x => x

/-- Go's conversion `int(f)`: truncation toward zero when the result fits in
64 bits, the platform's choice `implDep f` otherwise. -/
def F64.toInt (implDep : F64 → Int) : F64 → Int
  | F64.fin q =>
    let t : Int := if 0 ≤ q then ⌊q⌋ else ⌈q⌉
    if minInt64 ≤ t ∧ t ≤ maxInt64 then t else implDep (F64.fin q)
  | x => implDep x

/-- The pagination calculator of `transactionService.ListTransactions`:
`int(math.Ceil(float64(totalItems) / float64(req.Limit)))`. -/
def totalPages (implDep : F64 → Int) (totalItems limit : Int) : Int :=
  F64.toInt implDep (F64.ceil (F64.div (F64.ofInt totalItems) (F64.ofInt limit)))

/-- A binary64 value: a 53-bit significand times a power of two, exponent at
least `-1074`. -/
def IsF64 (g : ℚ) : Prop := ∃ m e : ℤ, |m| ≤ 2 ^ 53 ∧ -1074 ≤ e ∧ g = (m : ℚ) * 2 ^ e

/-- The result the amd64 instruction behind `int(f)` gives for a value that
does not fit: the "integer indefinite" value, the least `int`. -/
def amd64Conv : F64 → Int := fun _ => minInt64

/-! ## Calendar dates and `time.Parse("2006-01-02", s)` -/

/-- Go's `time.Time` as an instant: nanoseconds since 1970-01-01T00:00:00Z. -/
abbrev Time := Int

/-- Nanoseconds in Go's `time.Hour`. -/
def hour : Int := 3600 * 1000000000

/-- Go's `t.Add(d)`. -/
def Time.add (t : Time) (d : Int) : Time := t + d

/-- Leap years of the proleptic Gregorian calendar. -/
def isLeap (year : Int) : Bool := year % 4 = 0 && (year % 100 != 0 || year % 400 = 0)

/-- Go's `daysIn(month, year)`. -/
def daysIn (month year : Int) : Int :=
  if month = 2 then (if isLeap year then 29 else 28)
  else if month = 4 ∨ month = 6 ∨ month = 9 ∨ month = 11 then 30
  else 31

/-- Days from 1970-01-01 to January 1st of `year`. -/
def daysBeforeYear (year : Int) : Int :=
  365 * (year - 1) + (year - 1) / 4 - (year - 1) / 100 + (year - 1) / 400 - 719162

/-- Days from January 1st to the first day of `month` in a year. -/
def daysBeforeMonth (month : Int) (leap : Bool) : Int :=
  let base : Int :=
    if month = 1 then 0 else if month = 2 then 31 else if month = 3 then 59
    else if month = 4 then 90 else if month = 5 then 120 else if month = 6 then 151
    else if month = 7 then 181 else if month = 8 then 212 else if month = 9 then 243
    else if month = 10 then 273 else if month = 11 then 304 else 334
  if leap && 2 < month then base + 1 else base

/-- Days from 1970-01-01 to the given calendar date. -/
def daysFromCivil (year month day : Int) : Int :=
  daysBeforeYear year + daysBeforeMonth month (isLeap year) + (day - 1)

/-- Go's `time.Date(year, month, day, 0, 0, 0, 0, time.UTC)`: midnight UTC. -/
def midnight (year month day : Int) : Time := daysFromCivil year month day * (24 * hour)

/-- ASCII decimal digit test (`isDigit` of package `time`). -/
def isDigit (c : Char) : Bool := 48 ≤ c.toNat && c.toNat ≤ 57

/-- Value of an ASCII decimal digit. -/
def digitVal (c : Char) : Int := (c.toNat : Int) - 48

/-- The calendar date a string denotes under the layout `2006-01-02`: four
digits, `-`, two digits, `-`, two digits and nothing more, with the month in
`1..12` and the day in `1..daysIn month year`. -/
def parseYMD (s : String) : Option (Int × Int × Int) :=
  match s.toList with
  | [y1, y2, y3, y4, s1, m1, m2, s2, d1, d2] =>
    if isDigit y1 && isDigit y2 && isDigit y3 && isDigit y4 && s1 == '-'
        && isDigit m1 && isDigit m2 && s2 == '-' && isDigit d1 && isDigit d2 then
      let year := digitVal y1 * 1000 + digitVal y2 * 100 + digitVal y3 * 10 + digitVal y4
      let month := digitVal m1 * 10 + digitVal m2
      let day := digitVal d1 * 10 + digitVal d2
      if month ≤ 0 ∨ 12 < month then none
      else if day < 1 ∨ daysIn month year < day then none
      else some (year, month, day)
    else none
  | _ => none

/-- Go's `time.Parse("2006-01-02", s)`: `none` is a non-nil error, `some t`
the parsed midnight UTC. -/
def timeParse (s : String) : Option Time :=
  (parseYMD s).map (fun d => midnight d.1 d.2.1 d.2.2)

/-! ## Data transfer objects and entities -/

/-- `dto.TransactionListRequest`. -/
structure TransactionListRequest where
  Page : Int
  Limit : Int
  Search : String
  SortBy : String
  SortOrder : String
  StartDate : String
  EndDate : String
  deriving DecidableEq, Repr

/-- `dto.PaginationInfo`. -/
structure PaginationInfo where
  CurrentPage : Int
  TotalPages : Int
  TotalItems : Int
  ItemsPerPage : Int
  deriving DecidableEq, Repr

/-- `entity.Transaction`. `FromWalletID` is the pointer field `*int`; the zero
value of `FromWalletNumber` is the empty string. -/
structure Transaction where
  ID : Int
  FromWalletID : Option Int
  ToWalletID : Int
  Amount : F64
  Description : String
  SourceOfFundID : Int
  TransactionType : String
  CreatedAt : Time
  FromWalletNumber : String
  ToWalletNumber : String
  RecipientName : String
  deriving DecidableEq

/-- A Go slice value: `none` is the nil slice, `some l` a non-nil slice with
elements `l`. -/
abbrev GoSlice (α : Type) := Option (List α)

/-- Go's `len`. -/
def GoSlice.len {α : Type} (s : GoSlice α) : Nat := (s.getD []).length

/-- Go's `append(s, x)`: appending to the nil slice allocates. -/
def GoSlice.append {α : Type} (s : GoSlice α) (x : α) : GoSlice α := some (s.getD [] ++ [x])

/-- `dto.TransactionListResponse`. -/
structure TransactionListResponse where
  Transactions : GoSlice Transaction
  Pagination : PaginationInfo
  deriving DecidableEq

/-- A Go `error` value, by its message. -/
abbrev GoError := String

/-- A value bound to a query placeholder. -/
inductive Param where
  | int (n : Int)
  | str (s : String)
  | time (t : Time)
  deriving DecidableEq, Repr

/-! ## `transactionRepoImpl.ListTransactions`: building the two queries -/

/-- Go's `strings.ToLower`: ASCII letters are mapped by the fixed rule, every
other character by the Unicode table `unicodeLower`. -/
def toLower (unicodeLower : Char → Char) (s : String) : String :=
  String.mk (s.toList.map (fun c => if c.toNat < 128 then c.toLower else unicodeLower c))

/-- The `%d` verb of `fmt.Sprintf` on an `int`. -/
def fmtInt (n : Int) : String := toString n

/-- The initial text of `baseQuery`. -/
def baseQueryInit : String :=
  "\n        SELECT \n            t.id, t.from_wallet_id, t.to_wallet_id, t.amount, \n            t.description, t.source_of_fund_id, t.transaction_type, \n            t.created_at,\n            fw.wallet_number as from_wallet_number,\n            tw.wallet_number as to_wallet_number,\n            u.username as recipient_name\n        FROM transactions t\n        LEFT JOIN wallets fw ON t.from_wallet_id = fw.id\n        JOIN wallets tw ON t.to_wallet_id = tw.id\n        JOIN users u ON tw.user_id = u.id\n        WHERE (fw.user_id = $1 OR tw.user_id = $1)\n    "

/-- The initial text of `countQuery`. -/
def countQueryInit : String :=
  "\n        SELECT COUNT(*) \n        FROM transactions t\n        LEFT JOIN wallets fw ON t.from_wallet_id = fw.id\n        JOIN wallets tw ON t.to_wallet_id = tw.id\n        WHERE (fw.user_id = $1 OR tw.user_id = $1)\n    "

/-- The local variables of the query-building part of `ListTransactions`. -/
structure QueryState where
  baseQuery : String
  countQuery : String
  params : List Param
  paramCount : Int
  deriving DecidableEq, Repr

/-- Lines 27-52: the two query heads and the first parameter. -/
def initState (userID : Int) : QueryState :=
  { baseQuery := baseQueryInit, countQuery := countQueryInit,
    params := [Param.int userID], paramCount := 1 }

/-- Lines 55-60: the search condition. -/
def addSearch (req : TransactionListRequest) (st : QueryState) : QueryState :=
  if req.Search ≠ "" then
    let paramCount := st.paramCount + 1
    { baseQuery := st.baseQuery ++ (" AND LOWER(t.description) LIKE LOWER($" ++ fmtInt paramCount ++ ")"),
      countQuery := st.countQuery ++ (" AND LOWER(t.description) LIKE LOWER($" ++ fmtInt paramCount ++ ")"),
      params := st.params ++ [Param.str ("%" ++ req.Search ++ "%")],
      paramCount := paramCount }
  else st

/-- Lines 63-71: the lower date bound. -/
def addStartDate (req : TransactionListRequest) (st : QueryState) : QueryState :=
  if req.StartDate ≠ "" then
    match timeParse req.StartDate with
    | some startDate =>
      let paramCount := st.paramCount + 1
      { baseQuery := st.baseQuery ++ (" AND t.created_at >= $" ++ fmtInt paramCount),
        countQuery := st.countQuery ++ (" AND t.created_at >= $" ++ fmtInt paramCount),
        params := st.params ++ [Param.time startDate],
        paramCount := paramCount }
    | none => st
  else st

/-- Lines 73-82: the upper date bound, moved to the end of the day. -/
def addEndDate (req : TransactionListRequest) (st : QueryState) : QueryState :=
  if req.EndDate ≠ "" then
    match timeParse req.EndDate with
    | some endDate =>
      let endDate := Time.add endDate (24 * hour)
      let paramCount := st.paramCount + 1
      { baseQuery := st.baseQuery ++ (" AND t.created_at < $" ++ fmtInt paramCount),
        countQuery := st.countQuery ++ (" AND t.created_at < $" ++ fmtInt paramCount),
        params := st.params ++ [Param.time endDate],
        paramCount := paramCount }
    | none => st
  else st

/-- Lines 85-94: the text the `switch req.SortBy` appends. -/
def sortClause (sortBy : String) : String :=
  if sortBy = "date" then " ORDER BY t.created_at"
  else if sortBy = "amount" then " ORDER BY t.amount"
  else if sortBy = "recipient" then " ORDER BY recipient_name"
  else " ORDER BY t.created_at"

/-- Lines 96-100: the direction. -/
def directionClause (unicodeLower : Char → Char) (sortOrder : String) : String :=
  if toLower unicodeLower sortOrder = "asc" then " ASC" else " DESC"

/-- Line 103: `offset := (req.Page - 1) * req.Limit` in 64-bit arithmetic. -/
def pageOffset (req : TransactionListRequest) : Int :=
  wrapInt64 (wrapInt64 (req.Page - 1) * req.Limit)

/-- Line 104: the pagination suffix. -/
def paginationClause (req : TransactionListRequest) : String :=
  " LIMIT " ++ fmtInt req.Limit ++ " OFFSET " ++ fmtInt (pageOffset req)

/-- Lines 85-104 on the state: sorting and pagination go to `baseQuery` only. -/
def addSortAndPage (unicodeLower : Char → Char) (req : TransactionListRequest)
    (st : QueryState) : QueryState :=
  { st with baseQuery := st.baseQuery ++ sortClause req.SortBy
      ++ directionClause unicodeLower req.SortOrder ++ paginationClause req }

/-- The state after the filter conditions (lines 27-82). -/
def filterState (userID : Int) (req : TransactionListRequest) : QueryState :=
  addEndDate req (addStartDate req (addSearch req (initState userID)))

/-- Lines 27-104 of `ListTransactions`: the data query, the count query and
their shared parameter list. -/
def buildQueries (unicodeLower : Char → Char) (userID : Int) (req : TransactionListRequest) :
    QueryState :=
  addSortAndPage unicodeLower req (filterState userID req)

/-! ## The store, as `database/sql` presents it -/

/-- A row as `rows.Scan` delivers it into the destinations of lines 124-129:
the two nullable columns arrive as `sql.NullString` (`none` when `Valid` is
false). -/
structure ScannedRow where
  id : Int
  fromWalletID : Option String
  toWalletID : Int
  amount : F64
  description : String
  sourceOfFundID : Int
  transactionType : String
  createdAt : Time
  fromWalletNumber : Option String
  toWalletNumber : String
  recipientName : String
  deriving DecidableEq

/-- A result set `*sql.Rows`: for each row `rows.Next()` announces, the outcome
of `rows.Scan` on it, and the error `rows.Err()` holds once `rows.Next()` has
returned false (`none` when the set was read to its end). -/
structure Rows where
  scans : List (Except GoError ScannedRow)
  iterErr : Option GoError

/-- The database handle `*sql.DB` within one request: `queryRowScan` is
`QueryRowContext(..).Scan(&totalItems)`, `query` is `QueryContext(..)`. -/
structure DB where
  queryRowScan : String → List Param → Except GoError Int
  query : String → List Param → Except GoError Rows

/-- What a request did to its collaborators, in order. -/
inductive Event where
  | serviceCall (userID : Int) (req : TransactionListRequest)
  | countQuery (sql : String) (params : List Param)
  | dataQuery (sql : String) (params : List Param)
  deriving DecidableEq

/-- The three results of `transactionRepoImpl.ListTransactions`, with the
statements it executed. -/
structure RepoResult where
  transactions : GoSlice Transaction
  totalItems : Int
  err : Option GoError
  events : List Event
  deriving DecidableEq

/-- Lines 122-136: the `Transaction` built from one scanned row. Only
`FromWalletNumber` is copied from the nullable destinations. -/
def rowToTransaction (r : ScannedRow) : Transaction :=
  { ID := r.id
    FromWalletID := none
    ToWalletID := r.toWalletID
    Amount := r.amount
    Description := r.description
    SourceOfFundID := r.sourceOfFundID
    TransactionType := r.transactionType
    CreatedAt := r.createdAt
    FromWalletNumber := match r.fromWalletNumber with
      | some n => n
      | none => ""
    ToWalletNumber := r.toWalletNumber
    RecipientName := r.recipientName }

/-- Lines 121-137: the loop `for rows.Next()`. It stops with the error of the
first failed `Scan`; when `rows.Next()` returns false it ends, whatever
`rows.Err()` holds. -/
def scanLoop : List (Except GoError ScannedRow) → GoSlice Transaction →
    Except GoError (GoSlice Transaction)
  | [], acc => Except.ok acc
  | Except.error e :: _, _ => Except.error e
  | Except.ok r :: rest, acc => scanLoop rest (GoSlice.append acc (rowToTransaction r))

/-- `transactionRepoImpl.ListTransactions`. -/
def repoListTransactions (unicodeLower : Char → Char) (db : DB) (userID : Int)
    (req : TransactionListRequest) : RepoResult :=
  let q := buildQueries unicodeLower userID req
  let countEvent := Event.countQuery q.countQuery q.params
  let dataEvent := Event.dataQuery q.baseQuery q.params
  match db.queryRowScan q.countQuery q.params with
  | Except.error err =>
    { transactions := none, totalItems := 0, err := some err, events := [countEvent] }
  | Except.ok totalItems =>
    match db.query q.baseQuery q.params with
    | Except.error err =>
      { transactions := none, totalItems := 0, err := some err,
        events := [countEvent, dataEvent] }
    | Except.ok rows =>
      match scanLoop rows.scans none with
      | Except.error err =>
        { transactions := none, totalItems := 0, err := some err,
          events := [countEvent, dataEvent] }
      | Except.ok transactions =>
        { transactions := transactions, totalItems := totalItems, err := none,
          events := [countEvent, dataEvent] }

/-! ## `transactionService.ListTransactions` -/

/-- The two results of the service, with the statements executed below it. -/
structure ServiceResult where
  response : Option TransactionListResponse
  err : Option GoError
  events : List Event
  deriving DecidableEq

/-- Lines 23-38 of the use case, on the results of the repository. -/
def serviceOfRepo (implDep : F64 → Int) (req : TransactionListRequest) (r : RepoResult) :
    ServiceResult :=
  match r.err with
  | some err => { response := none, err := some err, events := r.events }
  | none =>
    { response := some
        { Transactions := r.transactions
          Pagination :=
            { CurrentPage := req.Page
              TotalPages := totalPages implDep r.totalItems req.Limit
              TotalItems := r.totalItems
              ItemsPerPage := req.Limit } }
      err := none
      events := r.events }

/-- `transactionService.ListTransactions` over `transactionRepoImpl`. -/
def serviceListTransactions (implDep : F64 → Int) (unicodeLower : Char → Char) (db : DB)
    (userID : Int) (req : TransactionListRequest) : ServiceResult :=
  serviceOfRepo implDep req (repoListTransactions unicodeLower db userID req)

/-! ## `Handler.ListTransactions` -/

/-- The JSON body the handler writes. -/
inductive Body where
  | error (message : String)
  | list (response : Option TransactionListResponse)
  deriving DecidableEq

/-- The HTTP response of the handler, with what the request did. -/
structure HTTPResult where
  status : Nat
  body : Body
  events : List Event
  deriving DecidableEq

/-- Lines 41-47: the defaults for `Limit` and `Page`. -/
def applyDefaults (req : TransactionListRequest) : TransactionListRequest :=
  let req := if req.Limit ≤ 0 then { req with Limit := 10 } else req
  if req.Page ≤ 0 then { req with Page := 1 } else req

/-- `Handler.ListTransactions`. `bound` is the outcome of `c.ShouldBindQuery`,
`userID` the value the authentication middleware stored in the context, and
`service` the `usecase.TransactionService` of the handler. -/
def handlerListTransactions (service : Int → TransactionListRequest → ServiceResult)
    (userID : Int) (bound : Except GoError TransactionListRequest) : HTTPResult :=
  match bound with
  | Except.error err => { status := 400, body := Body.error err, events := [] }
  | Except.ok req =>
    if req.StartDate ≠ "" ∧ (timeParse req.StartDate).isNone then
      { status := 400, body := Body.error "Invalid start date format. Use YYYY-MM-DD",
        events := [] }
    else if req.EndDate ≠ "" ∧ (timeParse req.EndDate).isNone then
      { status := 400, body := Body.error "Invalid end date format. Use YYYY-MM-DD",
        events := [] }
    else
      let req := applyDefaults req
      let r := service userID req
      match r.err with
      | some _ =>
        { status := 500, body := Body.error "Failed to fetch transactions",
          events := Event.serviceCall userID req :: r.events }
      | none =>
        { status := 200, body := Body.list r.response,
          events := Event.serviceCall userID req :: r.events }

/-! ## A reading of the two statements over a relational store

The statements are text; what they select is given here for the shapes the
builder produces. `Plan` is the structure of a built statement, `Plan.dataSQL`
and `Plan.countSQL` its text, and `countResult`, `selectedRows` and
`dataResult` its meaning over the three tables. The `LIKE` comparison of the
store is the parameter `like`. -/

/-- A row of table `transactions`. -/
structure TransactionRow where
  id : Int
  from_wallet_id : Option Int
  to_wallet_id : Int
  amount : ℚ
  description : String
  source_of_fund_id : Int
  transaction_type : String
  created_at : Time
  deriving DecidableEq

/-- A row of table `wallets`. -/
structure WalletRow where
  id : Int
  wallet_number : String
  user_id : Int
  deriving DecidableEq

/-- A row of table `users`. -/
structure UserRow where
  id : Int
  username : String
  deriving DecidableEq

/-- The three tables. -/
structure Store where
  transactions : List TransactionRow
  wallets : List WalletRow
  users : List UserRow

/-- A row of `transactions t LEFT JOIN wallets fw .. JOIN wallets tw ..`, the
`FROM` clause of the count query. -/
structure CountRow where
  t : TransactionRow
  fw : Option WalletRow
  tw : WalletRow
  deriving DecidableEq

/-- A row of the `FROM` clause of the data query: the same, joined to `users u`. -/
structure DataRow where
  base : CountRow
  u : UserRow
  deriving DecidableEq

/-- `LEFT JOIN wallets fw ON t.from_wallet_id = fw.id` for one transaction. -/
def leftJoinWallets (wallets : List WalletRow) (fromWalletID : Option Int) :
    List (Option WalletRow) :=
  match wallets.filter (fun w => fromWalletID = some w.id) with
  | [] => [none]
  | w :: ws => (w :: ws).map some

/-- The rows of the count query's `FROM` clause. -/
def countFrom (store : Store) : List CountRow :=
  store.transactions.flatMap fun t =>
    (leftJoinWallets store.wallets t.from_wallet_id).flatMap fun fw =>
      (store.wallets.filter (fun w => t.to_wallet_id = w.id)).map fun tw =>
        { t := t, fw := fw, tw := tw }

/-- `JOIN users u ON tw.user_id = u.id` for one row. -/
def joinUsers (users : List UserRow) (r : CountRow) : List DataRow :=
  (users.filter (fun u => r.tw.user_id = u.id)).map fun u => { base := r, u := u }

/-- The rows of the data query's `FROM` clause. -/
def dataFrom (store : Store) : List DataRow :=
  (countFrom store).flatMap (joinUsers store.users)

/-- An optional condition of the `WHERE` clause, with its placeholder number. -/
inductive Cond where
  | descLike (n : Int)
  | createdGe (n : Int)
  | createdLt (n : Int)
  deriving DecidableEq, Repr

/-- The text of a condition. -/
def Cond.sql : Cond → String
  | Cond.descLike n => " AND LOWER(t.description) LIKE LOWER($" ++ fmtInt n ++ ")"
  | Cond.createdGe n => " AND t.created_at >= $" ++ fmtInt n
  | Cond.createdLt n => " AND t.created_at < $" ++ fmtInt n

/-- The value bound to placeholder `$n`. -/
def placeholder (params : List Param) (n : Int) : Option Param :=
  if 1 ≤ n then params.get? (n - 1).toNat else none

/-- Whether a condition is true of a row. -/
def Cond.holds (like : String → String → Bool) (params : List Param) (r : CountRow) :
    Cond → Bool
  | Cond.descLike n =>
    match placeholder params n with
    | some (Param.str pattern) => like r.t.description pattern
    | _ => false
  | Cond.createdGe n =>
    match placeholder params n with
    | some (Param.time p) => decide (p ≤ r.t.created_at)
    | _ => false
  | Cond.createdLt n =>
    match placeholder params n with
    | some (Param.time p) => decide (r.t.created_at < p)
    | _ => false

/-- Whether `(fw.user_id = $1 OR tw.user_id = $1)` is true of a row; with no
sending wallet the first comparison is null and the second decides. -/
def ownerHolds (params : List Param) (r : CountRow) : Bool :=
  match placeholder params 1 with
  | some (Param.int userID) =>
    (match r.fw with
      | some w => decide (w.user_id = userID)
      | none => false) || decide (r.tw.user_id = userID)
  | _ => false

/-- The column of an `ORDER BY`. -/
inductive SortColumn where
  | createdAt
  | amount
  | recipientName
  deriving DecidableEq, Repr

/-- The direction of an `ORDER BY`. -/
inductive Direction where
  | asc
  | desc
  deriving DecidableEq, Repr

/-- The text of a sort column. -/
def SortColumn.sql : SortColumn → String
  | SortColumn.createdAt => "t.created_at"
  | SortColumn.amount => "t.amount"
  | SortColumn.recipientName => "recipient_name"

/-- The text of a direction. -/
def Direction.sql : Direction → String
  | Direction.asc => " ASC"
  | Direction.desc => " DESC"

/-- The structure of the pair of statements `ListTransactions` builds. -/
structure Plan where
  filters : List Cond
  orderBy : SortColumn
  direction : Direction
  limit : Int
  offset : Int
  deriving DecidableEq, Repr

/-- The text of the filter conditions, in order. -/
def Plan.filterSQL (plan : Plan) : String := String.join (plan.filters.map Cond.sql)

/-- The text of the count statement of a plan. -/
def Plan.countSQL (plan : Plan) : String := countQueryInit ++ plan.filterSQL

/-- The text of the data statement of a plan. -/
def Plan.dataSQL (plan : Plan) : String :=
  baseQueryInit ++ plan.filterSQL ++ (" ORDER BY " ++ plan.orderBy.sql) ++ plan.direction.sql
    ++ (" LIMIT " ++ fmtInt plan.limit ++ " OFFSET " ++ fmtInt plan.offset)

/-- The `WHERE` clause shared by both statements. -/
def whereHolds (like : String → String → Bool) (plan : Plan) (params : List Param)
    (r : CountRow) : Bool :=
  ownerHolds params r && plan.filters.all (Cond.holds like params r)

/-- The value `SELECT COUNT(*)` yields. -/
def countResult (like : String → String → Bool) (store : Store) (plan : Plan)
    (params : List Param) : Int :=
  (((countFrom store).filter (whereHolds like plan params)).length : Int)

/-- The rows of the data statement before `ORDER BY`, `LIMIT` and `OFFSET`. -/
def selectedRows (like : String → String → Bool) (store : Store) (plan : Plan)
    (params : List Param) : List DataRow :=
  (dataFrom store).filter (fun r => whereHolds like plan params r.base)

/-- The order of two rows under a sort column, ascending. -/
def rowLe (col : SortColumn) (a b : DataRow) : Prop :=
  match col with
  | SortColumn.createdAt => a.base.t.created_at ≤ b.base.t.created_at
  | SortColumn.amount => a.base.t.amount ≤ b.base.t.amount
  | SortColumn.recipientName => ¬ b.u.username < a.u.username

instance rowLeDecidable (col : SortColumn) : DecidableRel (rowLe col) := fun a b => by
  unfold rowLe
  cases col <;> exact inferInstance

/-- The rows in the order `ORDER BY` asks for (a stable sort; the store may
order ties otherwise). -/
def sortRows (plan : Plan) (rows : List DataRow) : List DataRow :=
  match plan.direction with
  | Direction.asc => rows.insertionSort (rowLe plan.orderBy)
  | Direction.desc => rows.insertionSort (fun a b => rowLe plan.orderBy b a)

/-- The rows the data statement returns; the store rejects a negative `LIMIT`
or `OFFSET`. -/
def dataResult (like : String → String → Bool) (store : Store) (plan : Plan)
    (params : List Param) : Except GoError (List DataRow) :=
  if plan.limit < 0 then Except.error "LIMIT must not be negative"
  else if plan.offset < 0 then Except.error "OFFSET must not be negative"
  else Except.ok
    (((sortRows plan (selectedRows like store plan params)).drop plan.offset.toNat).take
      plan.limit.toNat)

/-- The sort column `switch req.SortBy` selects. -/
def sortColumnOf (sortBy : String) : SortColumn :=
  if sortBy = "date" then SortColumn.createdAt
  else if sortBy = "amount" then SortColumn.amount
  else if sortBy = "recipient" then SortColumn.recipientName
  else SortColumn.createdAt

/-- The direction the comparison with `"asc"` selects. -/
def directionOf (unicodeLower : Char → Char) (sortOrder : String) : Direction :=
  if toLower unicodeLower sortOrder = "asc" then Direction.asc else Direction.desc

/-- The search condition of a request, if any. -/
def searchConds (req : TransactionListRequest) : List Cond :=
  if req.Search ≠ "" then [Cond.descLike 2] else []

/-- The lower date bound of a request, if any, after `before` conditions. -/
def startConds (req : TransactionListRequest) (before : List Cond) : List Cond :=
  if req.StartDate ≠ "" ∧ (timeParse req.StartDate).isSome then
    [Cond.createdGe (before.length + 2)] else []

/-- The upper date bound of a request, if any, after `before` conditions. -/
def endConds (req : TransactionListRequest) (before : List Cond) : List Cond :=
  if req.EndDate ≠ "" ∧ (timeParse req.EndDate).isSome then
    [Cond.createdLt (before.length + 2)] else []

/-- The filter conditions of a request, in the order they are appended. -/
def filtersOf (req : TransactionListRequest) : List Cond :=
  let f1 := searchConds req
  let f2 := f1 ++ startConds req f1
  f2 ++ endConds req f2

/-- The structure of the statements built for a request. -/
def planOf (unicodeLower : Char → Char) (req : TransactionListRequest) : Plan :=
  { filters := filtersOf req
    orderBy := sortColumnOf req.SortBy
    direction := directionOf unicodeLower req.SortOrder
    limit := req.Limit
    offset := pageOffset req }

/-! ## The parts of the two initial texts -/

/-- The select list of the data query. -/
def dataSelect : String :=
  "\n        SELECT \n            t.id, t.from_wallet_id, t.to_wallet_id, t.amount, \n            t.description, t.source_of_fund_id, t.transaction_type, \n            t.created_at,\n            fw.wallet_number as from_wallet_number,\n            tw.wallet_number as to_wallet_number,\n            u.username as recipient_name\n        "

/-- The select list of the count query. -/
def countSelect : String := "\n        SELECT COUNT(*) \n        "

/-- The joins both queries share. -/
def fromWallets : String :=
  "FROM transactions t\n        LEFT JOIN wallets fw ON t.from_wallet_id = fw.id\n        JOIN wallets tw ON t.to_wallet_id = tw.id\n        "

/-- The join only the data query has. -/
def usersJoin : String := "JOIN users u ON tw.user_id = u.id\n        "

/-- The ownership predicate both queries start their `WHERE` clause with. -/
def ownerWhere : String := "WHERE (fw.user_id = $1 OR tw.user_id = $1)\n    "

/-! ## Stores used as examples -/

/-- Referential integrity of `wallets.user_id`: every wallet's `user_id` is the
`id` of exactly one row of `users`. -/
def UsersKeyed (store : Store) : Prop :=
  ∀ w ∈ store.wallets, (store.users.filter (fun u => w.user_id = u.id)).length = 1

instance usersKeyedDecidable (store : Store) : Decidable (UsersKeyed store) := by
  unfold UsersKeyed
  exact inferInstance

/-- A `LIKE` comparison that accepts every description. -/
def likeAll : String → String → Bool := fun _ _ => true

/-- A request with no filter, the first page of ten. -/
def plainRequest : TransactionListRequest :=
  { Page := 1, Limit := 10, Search := "", SortBy := "", SortOrder := "",
    StartDate := "", EndDate := "" }

/-- Two users with a wallet each; user 7 sends to user 8, is topped up from
outside, and user 8 pays into the own wallet. -/
def exampleStore : Store :=
  { transactions :=
      [ { id := 1, from_wallet_id := some 1, to_wallet_id := 2, amount := 50,
          description := "lunch", source_of_fund_id := 1, transaction_type := "transfer",
          created_at := 1000 },
        { id := 2, from_wallet_id := none, to_wallet_id := 1, amount := 200,
          description := "top up", source_of_fund_id := 2, transaction_type := "topup",
          created_at := 2000 },
        { id := 3, from_wallet_id := none, to_wallet_id := 2, amount := 75,
          description := "top up", source_of_fund_id := 2, transaction_type := "topup",
          created_at := 3000 } ]
    wallets :=
      [ { id := 1, wallet_number := "W-1", user_id := 7 },
        { id := 2, wallet_number := "W-2", user_id := 8 } ]
    users := [ { id := 7, username := "alice" }, { id := 8, username := "bob" } ] }

/-- A store whose only wallet names a user that table `users` does not hold. -/
def danglingStore : Store :=
  { transactions :=
      [ { id := 1, from_wallet_id := none, to_wallet_id := 1, amount := 50,
          description := "top up", source_of_fund_id := 2, transaction_type := "topup",
          created_at := 1000 } ]
    wallets := [ { id := 1, wallet_number := "W-1", user_id := 7 } ]
    users := [] }

/-- A handle whose every statement fails. -/
def downDB : DB :=
  { queryRowScan := fun _ _ => Except.error "connection refused"
    query := fun _ _ => Except.error "connection refused" }

/-- A handle over a store in which nothing matches. -/
def emptyDB : DB :=
  { queryRowScan := fun _ _ => Except.ok 0
    query := fun _ _ => Except.ok { scans := [], iterErr := none } }

/-- The calendar day after a date. -/
def nextDay (year month day : Int) : Int × Int × Int :=
  if day < daysIn month year then (year, month, day + 1)
  else if month < 12 then (year, month + 1, 1)
  else (year + 1, 1, 1)

/-! ## Occurrences of a text in a statement -/

/-- Number of positions of `s` at which `pat` begins. -/
def countOcc (pat : List Char) : List Char → Nat
  | [] => 0
  | c :: cs => (if pat.isPrefixOf (c :: cs) then 1 else 0) + countOcc pat cs

/-- Number of occurrences of the text `pat` in the text `s`. -/
def occurrences (pat s : String) : Nat := countOcc pat.toList s.toList

/-- A request for January 2024. -/
def januaryRequest : TransactionListRequest :=
  { plainRequest with StartDate := "2024-01-01", EndDate := "2024-01-31" }

/-- Whether the last character of `X`, if any, does not occur in `pat`. -/
def lastForeign (pat X : List Char) : Bool :=
  match X.getLast? with
  | some f => !pat.contains f
  | none => true

/-- The characters of `ORDER BY`. -/
def orderByChars : List Char := "ORDER BY".toList

/-- The second page of ten, no filter. -/
def pageTwoRequest : TransactionListRequest :=
  { Page := 2, Limit := 10, Search := "", SortBy := "", SortOrder := "",
    StartDate := "", EndDate := "" }

/-- A request whose page and limit multiply beyond 64 bits. -/
def overflowRequest : TransactionListRequest :=
  { Page := 4294967297, Limit := 2147483648, Search := "", SortBy := "", SortOrder := "",
    StartDate := "", EndDate := "" }

/-- Twenty-five top-ups of the wallet of user 7, numbered in time order. -/
def twentyFiveStore : Store :=
  { transactions := (List.range 25).map fun i =>
      { id := (i : Int) + 1, from_wallet_id := none, to_wallet_id := 1, amount := 10,
        description := "top up", source_of_fund_id := 2, transaction_type := "topup",
        created_at := (i : Int) + 1 }
    wallets := [ { id := 1, wallet_number := "W-1", user_id := 7 } ]
    users := [ { id := 7, username := "alice" } ] }

/-- A scanned row: a top-up of 200 into wallet 1. -/
def sampleRowA : ScannedRow :=
  { id := 2, fromWalletID := none, toWalletID := 1, amount := F64.fin 200,
    description := "top up", sourceOfFundID := 2, transactionType := "topup",
    createdAt := 2000, fromWalletNumber := none, toWalletNumber := "W-1",
    recipientName := "alice" }

/-- A scanned row: a transfer of 50 from wallet 1 to wallet 2. -/
def sampleRowB : ScannedRow :=
  { id := 1, fromWalletID := some "1", toWalletID := 2, amount := F64.fin 50,
    description := "lunch", sourceOfFundID := 1, transactionType := "transfer",
    createdAt := 1000, fromWalletNumber := some "W-1", toWalletNumber := "W-2",
    recipientName := "bob" }

/-- A handle whose count succeeds with 3 and whose result set delivers two
rows and then breaks: `rows.Next()` returns false and `rows.Err()` holds the
error. -/
def brokenStreamDB : DB :=
  { queryRowScan := fun _ _ => Except.ok 3
    query := fun _ _ => Except.ok
      { scans := [Except.ok sampleRowA, Except.ok sampleRowB],
        iterErr := some "unexpected EOF" } }

/-- A handle whose count succeeds and whose second row fails to scan. -/
def badScanDB : DB :=
  { queryRowScan := fun _ _ => Except.ok 3
    query := fun _ _ => Except.ok
      { scans := [Except.ok sampleRowA, Except.error "converting NULL to string is unsupported"],
        iterErr := none } }

/-- A request asking for pages of zero items, as the service can be handed
when it is not called through the handler. -/
def zeroLimitRequest : TransactionListRequest :=
  { Page := 1, Limit := 0, Search := "", SortBy := "", SortOrder := "",
    StartDate := "", EndDate := "" }

/-- The row of the example store for the transfer from user 7 to user 8. -/
def exampleRow : DataRow :=
  { base :=
      { t := { id := 1, from_wallet_id := some 1, to_wallet_id := 2, amount := 50,
               description := "lunch", source_of_fund_id := 1, transaction_type := "transfer",
               created_at := 1000 }
        fw := some { id := 1, wallet_number := "W-1", user_id := 7 }
        tw := { id := 2, wallet_number := "W-2", user_id := 8 } }
    u := { id := 8, username := "bob" } }

/-! ## Placeholders of a statement -/

/-- The placeholder being read while scanning a statement: `none` outside a
placeholder, `some none` right after `$`, `some (some n)` after `$` and digits
of value `n`. -/
abbrev ScanState := Option (Option Nat)

/-- The placeholder number a scan state completes, if any. -/
def flushPlaceholder : ScanState → List Nat
  | some (some n) => [n]
  | _ => []

/-- The scan state after one more decimal digit. -/
def advancePlaceholder (st : ScanState) (c : Char) : ScanState :=
  match st with
  | none => none
  | some none => some (some (c.toNat - 48))
  | some (some n) => some (some (10 * n + (c.toNat - 48)))

/-- The numbers of the placeholders `$n` of a text, in order of occurrence,
scanned from a given state. -/
def scanPlaceholders : ScanState → List Char → List Nat
  | st, [] => flushPlaceholder st
  | st, c :: cs =>
    if c = '$' then flushPlaceholder st ++ scanPlaceholders (some none) cs
    else if isDigit c then scanPlaceholders (advancePlaceholder st c) cs
    else flushPlaceholder st ++ scanPlaceholders none cs

/-- The numbers of the placeholders `$n` occurring in a statement, in order. -/
def placeholdersIn (s : String) : List Nat := scanPlaceholders none s.toList

/-- The placeholder number a condition refers to. -/
def Cond.number : Cond → Int
  | Cond.descLike n => n
  | Cond.createdGe n => n
  | Cond.createdLt n => n

/-- The parameters a request appends after `userID`, in order: the search
pattern when `Search` is non-empty, the parsed `StartDate` when it is
non-empty and parses, the parsed `EndDate` plus 24 hours when it is non-empty
and parses. -/
def appendedParams (req : TransactionListRequest) : List Param :=
  (if req.Search ≠ "" then [Param.str ("%" ++ req.Search ++ "%")] else [])
  ++ (if req.StartDate ≠ "" then
        (match timeParse req.StartDate with
          | some t => [Param.time t]
          | none => [])
      else [])
  ++ (if req.EndDate ≠ "" then
        (match timeParse req.EndDate with
          | some t => [Param.time (Time.add t (24 * hour))]
          | none => [])
      else [])

/-- The parameter a condition of a request is about: the search pattern for
the description match, the parsed dates for the two bounds. -/
def fragmentParam (req : TransactionListRequest) : Cond → Option Param
  | Cond.descLike _ => some (Param.str ("%" ++ req.Search ++ "%"))
  | Cond.createdGe _ => (timeParse req.StartDate).map Param.time
  | Cond.createdLt _ => (timeParse req.EndDate).map (fun t => Param.time (Time.add t (24 * hour)))

/-- A request with a search text and both dates. -/
def fullRequest : TransactionListRequest :=
  { Page := 1, Limit := 10, Search := "lunch", SortBy := "amount", SortOrder := "asc",
    StartDate := "2024-01-01", EndDate := "2024-01-31" }

/-- A request whose start date is not a calendar date. -/
def badStartRequest : TransactionListRequest :=
  { Page := 1, Limit := 10, Search := "lunch", SortBy := "", SortOrder := "",
    StartDate := "2024-13-40", EndDate := "2024-01-31" }

/-- A handle whose count is 2 and whose result set delivers the two sample
rows to its end. -/
def twoRowDB : DB :=
  { queryRowScan := fun _ _ => Except.ok 2
    query := fun _ _ => Except.ok
      { scans := [Except.ok sampleRowA, Except.ok sampleRowB], iterErr := none } }

/-! ## Rounding lemmas -/

theorem roundHalfEven_nearest (q : ℚ) (n : ℤ) :
    |(roundHalfEven q : ℚ) - q| ≤ |(n : ℚ) - q| := by
  have hf : (⌊q⌋ : ℚ) ≤ q := Int.floor_le q
  have hf1 : q < ⌊q⌋ + 1 := Int.lt_floor_add_one q
  have hn : n ≤ ⌊q⌋ ∨ ⌊q⌋ + 1 ≤ n := by omega
  have hn1 : (n : ℚ) ≤ ⌊q⌋ ∨ ((⌊q⌋ : ℚ) + 1 ≤ n) := by
    rcases hn with h | h
    · left; exact_mod_cast h
    · right; exact_mod_cast h
  have ha1 := le_abs_self ((n : ℚ) - q)
  have ha2 := neg_abs_le ((n : ℚ) - q)
  unfold roundHalfEven
  split_ifs with h1 h2 h3
  · rw [abs_le]; rcases hn1 with h | h <;> constructor <;> linarith
  · push_cast; rw [abs_le]; rcases hn1 with h | h <;> constructor <;> linarith
  · have he : q - ⌊q⌋ = 1 / 2 := le_antisymm (not_lt.mp h2) (not_lt.mp h1)
    rw [abs_le]; rcases hn1 with h | h <;> constructor <;> linarith
  · have he : q - ⌊q⌋ = 1 / 2 := le_antisymm (not_lt.mp h2) (not_lt.mp h1)
    push_cast; rw [abs_le]; rcases hn1 with h | h <;> constructor <;> linarith

theorem f64Exp_ge (q : ℚ) : -1074 ≤ f64Exp q := le_max_right _ _

theorem f64Exp_spec (q : ℚ) (hq : 0 < q) :
    f64Exp q = -1074 ∨ (2 : ℚ) ^ (f64Exp q + 52) ≤ q := by
  unfold f64Exp
  rcases le_total (Int.log 2 |q| - 52) (-1074) with h | h
  · left; exact max_eq_right h
  · right
    rw [max_eq_left h, abs_of_pos hq]
    have := Int.zpow_log_le_self (b := 2) (by norm_num) hq
    simpa using this

/-- Scaling by the unit in the last place: a grid point `n * 2 ^ E` is no
nearer to `q` than the rounded value. -/
theorem roundF64_nearest_grid (q : ℚ) (n : ℤ) :
    |roundF64 q - q| ≤ |(n : ℚ) * 2 ^ f64Exp q - q| := by
  have hE : (0 : ℚ) < 2 ^ f64Exp q := zpow_pos (by norm_num) _
  have hs : q = q / 2 ^ f64Exp q * 2 ^ f64Exp q := by field_simp
  have h1 : roundF64 q - q
      = ((roundHalfEven (q / 2 ^ f64Exp q) : ℚ) - q / 2 ^ f64Exp q) * 2 ^ f64Exp q := by
    unfold roundF64; field_simp
  have h2 : (n : ℚ) * 2 ^ f64Exp q - q
      = ((n : ℚ) - q / 2 ^ f64Exp q) * 2 ^ f64Exp q := by
    field_simp
  rw [h1, h2, abs_mul, abs_mul]
  exact mul_le_mul_of_nonneg_right (roundHalfEven_nearest _ n) (abs_nonneg _)

/-- Rounding to nearest: no binary64 value `m * 2 ^ e` (53-bit significand,
exponent at least `-1074`) is nearer to `q` than `roundF64 q`. -/
theorem roundF64_nearest (q : ℚ) (hq : 0 ≤ q) (m e : ℤ) (hm : |m| ≤ 2 ^ 53)
    (he : -1074 ≤ e) : |roundF64 q - q| ≤ |(m : ℚ) * 2 ^ e - q| := by
  rcases hq.eq_or_lt with h0 | hpos
  · subst h0
    have : roundF64 0 = 0 := by simp [roundF64, roundHalfEven]
    rw [this]; simp
  rcases le_or_lt (f64Exp q) e with h | h
  · -- the candidate lies on the grid of `q`
    obtain ⟨k, hk⟩ := Int.eq_ofNat_of_zero_le (sub_nonneg.mpr h)
    have hg : (m : ℚ) * 2 ^ e = ((m * 2 ^ k : ℤ) : ℚ) * 2 ^ f64Exp q := by
      have : e = f64Exp q + k := by omega
      rw [this, zpow_add₀ (by norm_num : (2 : ℚ) ≠ 0)]
      push_cast
      rw [zpow_natCast]; ring
    rw [hg]
    exact roundF64_nearest_grid q _
  · -- the candidate lies below the binade of `q`
    have hE : (2 : ℚ) ^ (f64Exp q + 52) ≤ q := by
      rcases f64Exp_spec q hpos with h1 | h1
      · omega
      · exact h1
    have hp : (2 : ℚ) ^ (f64Exp q + 52) = ((2 ^ 52 : ℤ) : ℚ) * 2 ^ f64Exp q := by
      rw [zpow_add₀ (by norm_num : (2 : ℚ) ≠ 0)]
      push_cast
      rw [show ((52 : ℤ)) = ((52 : ℕ) : ℤ) from rfl, zpow_natCast]; ring
    have hgp : (m : ℚ) * 2 ^ e ≤ (2 : ℚ) ^ (f64Exp q + 52) := by
      have hm1 : (m : ℚ) ≤ 2 ^ (53 : ℤ) := by
        have : m ≤ 2 ^ 53 := le_trans (le_abs_self m) hm
        have h53 : (m : ℚ) ≤ ((2 ^ 53 : ℤ) : ℚ) := by exact_mod_cast this
        calc (m : ℚ) ≤ ((2 ^ 53 : ℤ) : ℚ) := h53
          _ = 2 ^ (53 : ℤ) := by norm_num
      have h2 : (0 : ℚ) < 2 ^ e := zpow_pos (by norm_num) _
      calc (m : ℚ) * 2 ^ e ≤ 2 ^ (53 : ℤ) * 2 ^ e := mul_le_mul_of_nonneg_right hm1 h2.le
        _ = 2 ^ (53 + e) := (zpow_add₀ (by norm_num : (2 : ℚ) ≠ 0) _ _).symm
        _ ≤ 2 ^ (f64Exp q + 52) := zpow_le_zpow_right₀ (by norm_num) (by omega)
    have h3 := roundF64_nearest_grid q (2 ^ 52)
    rw [← hp] at h3
    rw [abs_of_nonpos (by linarith : (2 : ℚ) ^ (f64Exp q + 52) - q ≤ 0)] at h3
    rw [abs_of_nonpos (by linarith : (m : ℚ) * 2 ^ e - q ≤ 0)]
    linarith

theorem isF64_int (k : ℤ) (hk : |k| ≤ 2 ^ 53) : IsF64 (k : ℚ) :=
  ⟨k, 0, hk, by norm_num, by simp⟩

theorem isF64_zpow (e : ℤ) (he : -1074 ≤ e) : IsF64 ((2 : ℚ) ^ e) :=
  ⟨1, e, by norm_num, he, by simp⟩

theorem roundF64_near (q g : ℚ) (hq : 0 ≤ q) (hg : IsF64 g) :
    |roundF64 q - q| ≤ |g - q| := by
  obtain ⟨m, e, hm, he, rfl⟩ := hg
  exact roundF64_nearest q hq m e hm he

theorem roundF64_exact (q : ℚ) (hq : 0 ≤ q) (hg : IsF64 q) : roundF64 q = q := by
  have h := roundF64_near q q hq hg
  rw [sub_self, abs_zero] at h
  exact sub_eq_zero.mp (abs_eq_zero.mp (le_antisymm h (abs_nonneg _)))

theorem roundF64_le (q g : ℚ) (hq : 0 ≤ q) (hg : IsF64 g) (h : q ≤ g) : roundF64 q ≤ g := by
  by_contra hc
  push_neg at hc
  have h1 := roundF64_near q g hq hg
  rw [abs_of_nonneg (by linarith), abs_of_nonneg (by linarith)] at h1
  linarith

theorem le_roundF64 (q g : ℚ) (hq : 0 ≤ q) (hg : IsF64 g) (h : g ≤ q) : g ≤ roundF64 q := by
  by_contra hc
  push_neg at hc
  have h1 := roundF64_near q g hq hg
  rw [abs_of_nonpos (by linarith), abs_of_nonpos (by linarith)] at h1
  linarith

/-- Above a natural number `n < 2 ^ 53` there is a binary64 value within
`2 / b` of it, as soon as `n * b < 2 ^ 53`. -/
theorem exists_f64_above (n : ℕ) (b : ℚ) (hn : n < 2 ^ 53) (hb0 : 0 < b)
    (hb : b ≤ 2 ^ 64) (hnb : (n : ℚ) * b < 2 ^ 53) :
    ∃ g : ℚ, IsF64 g ∧ (n : ℚ) < g ∧ g - n < 2 / b := by
  rcases Nat.eq_zero_or_pos n with h0 | hpos
  · subst h0
    refine ⟨2 ^ (-70 : ℤ), isF64_zpow _ (by norm_num), by positivity, ?_⟩
    rw [lt_div_iff₀ hb0]
    have : ((2 : ℚ) ^ (-70 : ℤ) - ((0 : ℕ) : ℚ)) = 1 / 2 ^ 70 := by
      rw [zpow_neg]; norm_num
    rw [this]
    have h64 : ((2 : ℚ) ^ 64) = 2 ^ 70 / 2 ^ 6 := by norm_num
    calc 1 / 2 ^ 70 * b ≤ 1 / 2 ^ 70 * 2 ^ 64 := by
          apply mul_le_mul_of_nonneg_left hb; positivity
      _ < 2 := by norm_num
  · set j := Nat.log 2 n with hj
    have h1 : 2 ^ j ≤ n := Nat.pow_log_le_self 2 (by omega)
    have h2 : n < 2 ^ (j + 1) := Nat.lt_pow_succ_log_self (by norm_num) n
    have hj52 : j ≤ 52 := by
      have : 2 ^ j < 2 ^ 53 := lt_of_le_of_lt h1 hn
      have := (Nat.pow_lt_pow_iff_right (by norm_num : 1 < 2)).mp this
      omega
    obtain ⟨d, hd⟩ : ∃ d, 52 = j + d := ⟨52 - j, by omega⟩
    have hpow : (2 : ℚ) ^ ((j : ℤ) - 52) * 2 ^ d = 1 := by
      rw [← zpow_natCast (2 : ℚ) d, ← zpow_add₀ (by norm_num : (2 : ℚ) ≠ 0)]
      have : (j : ℤ) - 52 + d = 0 := by omega
      rw [this, zpow_zero]
    have hpos2 : (0 : ℚ) < 2 ^ ((j : ℤ) - 52) := zpow_pos (by norm_num) _
    refine ⟨((n * 2 ^ d + 1 : ℕ) : ℚ) * 2 ^ ((j : ℤ) - 52),
      ⟨((n * 2 ^ d + 1 : ℕ) : ℤ), (j : ℤ) - 52, ?_, by omega, by push_cast; ring⟩, ?_, ?_⟩
    · rw [abs_of_nonneg (by positivity)]
      have : n * 2 ^ d < 2 ^ (j + 1) * 2 ^ d :=
        Nat.mul_lt_mul_of_pos_right h2 (by positivity)
      have e : 2 ^ (j + 1) * 2 ^ d = 2 ^ 53 := by
        rw [← pow_add]; congr 1; omega
      have : n * 2 ^ d + 1 ≤ 2 ^ 53 := by omega
      exact_mod_cast this
    · have : ((n * 2 ^ d + 1 : ℕ) : ℚ) * 2 ^ ((j : ℤ) - 52)
          = n + 2 ^ ((j : ℤ) - 52) := by
        push_cast
        calc ((n : ℚ) * 2 ^ d + 1) * 2 ^ ((j : ℤ) - 52)
            = n * (2 ^ ((j : ℤ) - 52) * 2 ^ d) + 2 ^ ((j : ℤ) - 52) := by ring
          _ = n + 2 ^ ((j : ℤ) - 52) := by rw [hpow, mul_one]
      rw [this]; linarith
    · have : ((n * 2 ^ d + 1 : ℕ) : ℚ) * 2 ^ ((j : ℤ) - 52) - n
          = 2 ^ ((j : ℤ) - 52) := by
        push_cast
        calc ((n : ℚ) * 2 ^ d + 1) * 2 ^ ((j : ℤ) - 52) - n
            = n * (2 ^ ((j : ℤ) - 52) * 2 ^ d) + 2 ^ ((j : ℤ) - 52) - n := by ring
          _ = 2 ^ ((j : ℤ) - 52) := by rw [hpow, mul_one]; ring
      rw [this, lt_div_iff₀ hb0]
      -- `2 ^ (j - 52) * b < 2` since `2 ^ j * b ≤ n * b < 2 ^ 53`
      have hjq : (2 : ℚ) ^ ((j : ℤ) - 52) = 2 ^ j / 2 ^ 52 := by
        rw [zpow_sub₀ (by norm_num : (2 : ℚ) ≠ 0), zpow_natCast]
        norm_num
      have h1q : ((2 : ℚ) ^ j) ≤ n := by exact_mod_cast h1
      have : (2 : ℚ) ^ j * b < 2 ^ 53 :=
        lt_of_le_of_lt (mul_le_mul_of_nonneg_right h1q hb0.le) hnb
      rw [hjq, div_mul_eq_mul_div, div_lt_iff₀ (by positivity)]
      calc (2 : ℚ) ^ j * b < 2 ^ 53 := this
        _ = 2 * 2 ^ 52 := by norm_num

/-- The ceiling survives rounding: a quotient at least `1 / b` above the
natural number `n` and at most `n + 1` rounds to a value in `(n, n + 1]`. -/
theorem ceil_roundF64 (q b : ℚ) (n : ℕ) (hn : n < 2 ^ 53) (hb0 : 0 < b)
    (hb : b ≤ 2 ^ 64) (hnb : (n : ℚ) * b < 2 ^ 53) (hlo : (n : ℚ) + 1 / b ≤ q)
    (hhi : q ≤ n + 1) : (n : ℚ) < roundF64 q ∧ roundF64 q ≤ n + 1 := by
  have hq0 : 0 ≤ q := by
    have : 0 < 1 / b := by positivity
    have : (0 : ℚ) ≤ n := by positivity
    linarith
  constructor
  · by_contra hc
    push_neg at hc
    obtain ⟨g, hg, hg1, hg2⟩ := exists_f64_above n b hn hb0 hb hnb
    have h1 := roundF64_near q g hq0 hg
    have hb1 : 0 < 1 / b := by positivity
    have h2 : 2 / b = 1 / b + 1 / b := by ring
    rw [abs_of_nonpos (by linarith)] at h1
    rcases le_total g q with h | h
    · rw [abs_of_nonpos (by linarith)] at h1; linarith
    · rw [abs_of_nonneg (by linarith)] at h1; linarith
  · have hrep : IsF64 ((n : ℚ) + 1) := by
      have := isF64_int ((n : ℤ) + 1) (by
        rw [abs_of_nonneg (by positivity)]
        have : n + 1 ≤ 2 ^ 53 := hn
        exact_mod_cast this)
      simpa using this
    exact roundF64_le q _ hq0 hrep hhi

theorem F64.ofRat_eq_fin (q : ℚ) (h : |roundF64 q| < 2 ^ (1024 : ℕ)) :
    F64.ofRat q = F64.fin (roundF64 q) := by
  unfold F64.ofRat
  rw [if_neg (not_le.mpr h)]

theorem F64.toInt_fin_int (implDep : F64 → Int) (k : ℤ) (h0 : 0 ≤ k) (h1 : k ≤ maxInt64) :
    F64.toInt implDep (F64.fin (k : ℚ)) = k := by
  have hk : (0 : ℚ) ≤ (k : ℚ) := by exact_mod_cast h0
  simp only [F64.toInt, hk, if_true, Int.floor_intCast]
  rw [if_pos]
  exact ⟨by unfold minInt64; omega, h1⟩

/-- Rounded quotient of two converted integers, `0 ≤ a ≤ 2 ^ 53` and
`1 ≤ b < 2 ^ 63`: it lies in `(n, n + 1]` for `n + 1` the exact ceiling. -/
theorem roundF64_quot (a b : ℤ) (ha1 : 1 ≤ a) (ha : a ≤ 2 ^ 53) (hb1 : 1 ≤ b)
    (hb : b ≤ maxInt64) :
    ∃ n : ℕ, n < 2 ^ 53 ∧ ⌈(a : ℚ) / b⌉ = (n : ℤ) + 1 ∧
      (n : ℚ) < roundF64 ((a : ℚ) / roundF64 b) ∧
      roundF64 ((a : ℚ) / roundF64 b) ≤ n + 1 := by
  have hbq : (1 : ℚ) ≤ (b : ℚ) := by exact_mod_cast hb1
  have haq1 : (1 : ℚ) ≤ (a : ℚ) := by exact_mod_cast ha1
  have haq : (a : ℚ) ≤ 2 ^ 53 := by exact_mod_cast ha
  rcases le_or_lt b (2 ^ 53) with hsmall | hbig
  · -- the divisor converts exactly
    have hB : roundF64 (b : ℚ) = b :=
      roundF64_exact _ (by linarith) (isF64_int b (by rw [abs_of_nonneg (by omega)]; exact hsmall))
    rw [hB]
    have hdiv := Int.ediv_add_emod (a - 1) b
    have hr0 := Int.emod_nonneg (a - 1) (by omega : b ≠ 0)
    have hr1 := Int.emod_lt_of_pos (a - 1) (by omega : 0 < b)
    have hn0 : 0 ≤ (a - 1) / b := Int.ediv_nonneg (by omega) (by omega)
    obtain ⟨n, hn⟩ := Int.eq_ofNat_of_zero_le hn0
    rw [hn] at hdiv
    have hnb : b * (n : ℤ) ≤ a - 1 := by omega
    have hnb2 : a ≤ b * ((n : ℤ) + 1) := by
      have : b * ((n : ℤ) + 1) = b * n + b := by ring
      omega
    have hnbq : (b : ℚ) * n + 1 ≤ a := by
      have : b * (n : ℤ) + 1 ≤ a := by omega
      exact_mod_cast this
    have hnb2q : (a : ℚ) ≤ b * (n + 1) := by exact_mod_cast hnb2
    have hnlt : (n : ℤ) < 2 ^ 53 := by
      have : (n : ℤ) ≤ b * n := by nlinarith
      omega
    have hnlt2 : n < 2 ^ 53 := by exact_mod_cast hnlt
    have hb0 : (0 : ℚ) < b := by linarith
    have hlo : (n : ℚ) + 1 / b ≤ (a : ℚ) / b := by
      rw [le_div_iff₀ hb0]
      have : ((n : ℚ) + 1 / b) * b = b * n + 1 := by field_simp; ring
      rw [this]; exact hnbq
    have hhi : (a : ℚ) / b ≤ n + 1 := by
      rw [div_le_iff₀ hb0]; linarith
    have hb64 : (b : ℚ) ≤ 2 ^ 64 := by
      have : b ≤ 2 ^ 64 := by omega
      exact_mod_cast this
    have hnbq2 : (n : ℚ) * b < 2 ^ 53 := by
      have : (n : ℤ) * b < 2 ^ 53 := by nlinarith
      exact_mod_cast this
    refine ⟨n, hnlt2, ?_, ceil_roundF64 _ b n hnlt2 hb0 hb64 hnbq2 hlo hhi⟩
    rw [Int.ceil_eq_iff]
    have : (0 : ℚ) < 1 / b := by positivity
    push_cast
    constructor <;> linarith
  · -- the divisor is rounded, and exceeds the dividend
    have hbq53 : (2 : ℚ) ^ 53 ≤ b := by
      have : (2 : ℤ) ^ 53 ≤ b := by omega
      exact_mod_cast this
    have hbq63 : (b : ℚ) ≤ 2 ^ (63 : ℤ) := by
      have : b ≤ 2 ^ 63 := by unfold maxInt64 at hb; omega
      have h63 : (b : ℚ) ≤ ((2 ^ 63 : ℤ) : ℚ) := by exact_mod_cast this
      calc (b : ℚ) ≤ ((2 ^ 63 : ℤ) : ℚ) := h63
        _ = 2 ^ (63 : ℤ) := by norm_num
    have hB1 : (2 : ℚ) ^ 53 ≤ roundF64 b := by
      have h := le_roundF64 (b : ℚ) (2 ^ (53 : ℤ)) (by linarith) (isF64_zpow 53 (by norm_num))
        (by rw [show ((2 : ℚ) ^ (53 : ℤ)) = 2 ^ 53 by norm_num]; exact hbq53)
      rw [show ((2 : ℚ) ^ (53 : ℤ)) = 2 ^ 53 by norm_num] at h
      exact h
    have hB2 : roundF64 b ≤ 2 ^ 64 := by
      have h := roundF64_le (b : ℚ) (2 ^ (63 : ℤ)) (by linarith) (isF64_zpow 63 (by norm_num))
        hbq63
      calc roundF64 b ≤ 2 ^ (63 : ℤ) := h
        _ ≤ 2 ^ 64 := by norm_num
    have hB0 : (0 : ℚ) < roundF64 b := by
      have : (0 : ℚ) < 2 ^ 53 := by positivity
      linarith
    have hb0 : (0 : ℚ) < b := by linarith
    refine ⟨0, by norm_num, ?_, ?_⟩
    · rw [Int.ceil_eq_iff]
      push_cast
      constructor
      · have : (0 : ℚ) < a / b := by positivity
        linarith
      · rw [div_le_iff₀ hb0]; linarith
    · have hlo : ((0 : ℕ) : ℚ) + 1 / roundF64 b ≤ (a : ℚ) / roundF64 b := by
        rw [Nat.cast_zero, zero_add]
        exact div_le_div_of_nonneg_right haq1 hB0.le
      have hhi : (a : ℚ) / roundF64 b ≤ ((0 : ℕ) : ℚ) + 1 := by
        rw [Nat.cast_zero, zero_add, div_le_iff₀ hB0]; linarith
      exact ceil_roundF64 _ (roundF64 b) 0 (by norm_num) hB0 hB2
        (by rw [Nat.cast_zero, zero_mul]; positivity) hlo hhi

theorem roundF64_zero : roundF64 0 = 0 := by simp [roundF64, roundHalfEven]

/-- A positive `int` converts to a finite, positive `float64`. -/
theorem F64.ofInt_pos (b : ℤ) (hb1 : 1 ≤ b) (hb : b ≤ maxInt64) :
    F64.ofInt b = F64.fin (roundF64 b) ∧ 0 < roundF64 (b : ℚ) := by
  have hbq : (1 : ℚ) ≤ (b : ℚ) := by exact_mod_cast hb1
  have hbq63 : (b : ℚ) ≤ 2 ^ (63 : ℤ) := by
    have : b ≤ 2 ^ 63 := by unfold maxInt64 at hb; omega
    have h63 : (b : ℚ) ≤ ((2 ^ 63 : ℤ) : ℚ) := by exact_mod_cast this
    calc (b : ℚ) ≤ ((2 ^ 63 : ℤ) : ℚ) := h63
      _ = 2 ^ (63 : ℤ) := by norm_num
  have h1 : (1 : ℚ) ≤ roundF64 b := by
    have := le_roundF64 (b : ℚ) (2 ^ (0 : ℤ)) (by linarith) (isF64_zpow 0 (by norm_num))
      (by simpa using hbq)
    simpa using this
  have h2 : roundF64 (b : ℚ) ≤ 2 ^ (63 : ℤ) :=
    roundF64_le (b : ℚ) (2 ^ (63 : ℤ)) (by linarith) (isF64_zpow 63 (by norm_num)) hbq63
  refine ⟨?_, by linarith⟩
  unfold F64.ofInt
  apply F64.ofRat_eq_fin
  rw [abs_of_nonneg (by linarith)]
  calc roundF64 (b : ℚ) ≤ 2 ^ (63 : ℤ) := h2
    _ < 2 ^ (1024 : ℕ) := by norm_num

/-- The pagination calculator is exact for counts up to `2 ^ 53`. -/
theorem totalPages_eq_ceil (implDep : F64 → Int) (a b : ℤ) (ha0 : 0 ≤ a) (ha : a ≤ 2 ^ 53)
    (hb1 : 1 ≤ b) (hb : b ≤ maxInt64) :
    totalPages implDep a b = ⌈(a : ℚ) / b⌉ := by
  obtain ⟨hBfin, hB0⟩ := F64.ofInt_pos b hb1 hb
  have haq0 : (0 : ℚ) ≤ (a : ℚ) := by exact_mod_cast ha0
  have hAex : roundF64 (a : ℚ) = a :=
    roundF64_exact _ haq0 (isF64_int a (by rw [abs_of_nonneg ha0]; exact ha))
  have hAfin : F64.ofInt a = F64.fin (a : ℚ) := by
    unfold F64.ofInt
    rw [F64.ofRat_eq_fin, hAex]
    rw [hAex, abs_of_nonneg haq0]
    have : (a : ℚ) ≤ 2 ^ 53 := by exact_mod_cast ha
    calc (a : ℚ) ≤ 2 ^ 53 := this
      _ < 2 ^ (1024 : ℕ) := by norm_num
  unfold totalPages
  rw [hAfin, hBfin]
  simp only [F64.div, if_neg hB0.ne.symm]
  rcases ha0.eq_or_lt with h0 | hpos
  · subst h0
    have hz : F64.ofRat (((0 : ℤ) : ℚ) / roundF64 (b : ℚ)) = F64.fin 0 := by
      rw [Int.cast_zero, zero_div, F64.ofRat_eq_fin, roundF64_zero]
      rw [roundF64_zero]; norm_num
    rw [hz]
    simp [F64.ceil, F64.toInt, minInt64, maxInt64]
  · obtain ⟨n, hn, hceil, hlo, hhi⟩ := roundF64_quot a b (by omega) ha hb1 hb
    have hfin : F64.ofRat ((a : ℚ) / roundF64 b) = F64.fin (roundF64 ((a : ℚ) / roundF64 b)) := by
      apply F64.ofRat_eq_fin
      have hn0 : (0 : ℚ) ≤ n := by positivity
      rw [abs_of_nonneg (by linarith)]
      have : ((n : ℚ) + 1) ≤ 2 ^ 53 := by
        have : n + 1 ≤ 2 ^ 53 := hn
        exact_mod_cast this
      calc roundF64 ((a : ℚ) / roundF64 b) ≤ n + 1 := hhi
        _ ≤ 2 ^ 53 := this
        _ < 2 ^ (1024 : ℕ) := by norm_num
    have hc : ⌈roundF64 ((a : ℚ) / roundF64 b)⌉ = (n : ℤ) + 1 := by
      rw [Int.ceil_eq_iff]; push_cast
      constructor <;> linarith
    rw [hfin, hceil]
    simp only [F64.ceil, hc]
    apply F64.toInt_fin_int
    · positivity
    · have : (n : ℤ) < 2 ^ 53 := by exact_mod_cast hn
      unfold maxInt64; omega

/-! ## The built statements and their structure -/

theorem filterState_eq (userID : Int) (req : TransactionListRequest) :
    (filterState userID req).baseQuery = baseQueryInit ++ String.join ((filtersOf req).map Cond.sql)
    ∧ (filterState userID req).countQuery
        = countQueryInit ++ String.join ((filtersOf req).map Cond.sql)
    ∧ (filterState userID req).paramCount = (filtersOf req).length + 1 := by
  unfold filterState addEndDate addStartDate addSearch initState filtersOf searchConds
    startConds endConds
  by_cases h1 : req.Search = "" <;> by_cases h2 : req.StartDate = ""
    <;> by_cases h3 : req.EndDate = ""
    <;> cases h4 : timeParse req.StartDate <;> cases h5 : timeParse req.EndDate
    <;> simp [h1, h2, h3, h4, h5, Cond.sql, String.join, String.append_assoc]

theorem f64Exp_tie : f64Exp 9007199254740993 = 1 := by
  unfold f64Exp
  have h : Int.log 2 |(9007199254740993 : ℚ)| = 53 := by
    rw [abs_of_nonneg (by norm_num)]
    have : (9007199254740993 : ℚ) = ((9007199254740993 : ℕ) : ℚ) := by norm_num
    rw [this, Int.log_natCast]
    have : Nat.log 2 9007199254740993 = 53 := by
      rw [Nat.log_eq_iff (by norm_num)]
      norm_num
    rw [this]; rfl
  rw [h]; norm_num

theorem roundF64_tie : roundF64 9007199254740993 = 9007199254740992 := by
  unfold roundF64
  rw [f64Exp_tie]
  have hf : ⌊(9007199254740993 : ℚ) / 2 ^ (1 : ℤ)⌋ = 4503599627370496 := by
    rw [Int.floor_eq_iff]; norm_num
  unfold roundHalfEven
  rw [hf]
  norm_num

theorem totalPages_tie (implDep : F64 → Int) :
    totalPages implDep 9007199254740993 1 = 9007199254740992 := by
  have hA : F64.ofInt 9007199254740993 = F64.fin 9007199254740992 := by
    unfold F64.ofInt
    rw [show (((9007199254740993 : ℤ)) : ℚ) = 9007199254740993 by norm_num,
      F64.ofRat_eq_fin, roundF64_tie]
    rw [roundF64_tie]; norm_num
  have hB : F64.ofInt 1 = F64.fin 1 := by
    have h1 : roundF64 ((1 : ℤ) : ℚ) = ((1 : ℤ) : ℚ) :=
      roundF64_exact _ (by norm_num) (isF64_int 1 (by norm_num))
    unfold F64.ofInt
    rw [F64.ofRat_eq_fin, h1]
    · norm_num
    · rw [h1]; norm_num
  have hQ : roundF64 (9007199254740992 / 1) = 9007199254740992 := by
    have := roundF64_exact (((9007199254740992 : ℤ)) : ℚ) (by norm_num)
      (isF64_int 9007199254740992 (by norm_num))
    rw [div_one]
    simpa using this
  unfold totalPages
  rw [hA, hB]
  simp only [F64.div, one_ne_zero, if_false]
  rw [F64.ofRat_eq_fin, hQ]
  · have := F64.toInt_fin_int implDep 9007199254740992 (by norm_num)
      (by unfold maxInt64; norm_num)
    simpa [F64.ceil] using this
  · rw [hQ]; norm_num

/-! ## Pagination metadata (C1) -/

/-- C1 (as amended): for every total item count `0 ≤ totalItems ≤ 2 ^ 53` and
every page size `1 ≤ limit ≤ maxInt64`, the response the service builds from a
successful repository result has `TotalPages` equal to the exact integer
ceiling of `totalItems / limit`, and `TotalPages = 0` when `totalItems = 0`. -/
theorem C1_totalPages_exact (implDep : F64 → Int) (req : TransactionListRequest)
    (r : RepoResult) (hok : r.err = none) (h0 : 0 ≤ r.totalItems)
    (h53 : r.totalItems ≤ 2 ^ 53) (hl1 : 1 ≤ req.Limit) (hl : req.Limit ≤ maxInt64) :
    ∃ resp, (serviceOfRepo implDep req r).response = some resp
      ∧ resp.Pagination.TotalPages = ⌈(r.totalItems : ℚ) / (req.Limit : ℚ)⌉
      ∧ (r.totalItems = 0 → resp.Pagination.TotalPages = 0) := by
  have h := totalPages_eq_ceil implDep r.totalItems req.Limit h0 h53 hl1 hl
  refine ⟨{ Transactions := r.transactions,
             Pagination := { CurrentPage := req.Page,
                             TotalPages := totalPages implDep r.totalItems req.Limit,
                             TotalItems := r.totalItems,
                             ItemsPerPage := req.Limit } }, ?_, h, ?_⟩
  · simp only [serviceOfRepo, hok]
  · intro hz
    show totalPages implDep r.totalItems req.Limit = 0
    rw [h, hz]; simp

/-- C1, at 25 items and page size 10: three pages. -/
theorem C1_totalPages_exact_witness :
    ∃ resp, (serviceOfRepo amd64Conv
        { Page := 2, Limit := 10, Search := "", SortBy := "", SortOrder := "",
          StartDate := "", EndDate := "" }
        { transactions := none, totalItems := 25, err := none, events := [] }).response
        = some resp
      ∧ resp.Pagination.TotalPages = ⌈((25 : ℤ) : ℚ) / ((10 : ℤ) : ℚ)⌉
      ∧ ((25 : ℤ) = 0 → resp.Pagination.TotalPages = 0) :=
  C1_totalPages_exact amd64Conv
    { Page := 2, Limit := 10, Search := "", SortBy := "", SortOrder := "",
      StartDate := "", EndDate := "" }
    { transactions := none, totalItems := 25, err := none, events := [] }
    rfl (by decide) (by norm_num) (by decide) (by unfold maxInt64; norm_num)

/-- C1 fails as stated: with `2 ^ 53 + 1` items and page size 1 the conversion
`float64(totalItems)` rounds, and the response carries `2 ^ 53` pages, one
less than the exact ceiling. -/
theorem C1_counterexample :
    (serviceOfRepo amd64Conv
        { Page := 1, Limit := 1, Search := "", SortBy := "", SortOrder := "",
          StartDate := "", EndDate := "" }
        { transactions := none, totalItems := 9007199254740993, err := none,
          events := [] }).response
      = some { Transactions := none,
               Pagination := { CurrentPage := 1, TotalPages := 9007199254740992,
                               TotalItems := 9007199254740993, ItemsPerPage := 1 } }
    ∧ (9007199254740992 : ℤ) ≠ ⌈((9007199254740993 : ℤ) : ℚ) / ((1 : ℤ) : ℚ)⌉ := by
  constructor
  · simp only [serviceOfRepo, totalPages_tie]
  · have : ⌈((9007199254740993 : ℤ) : ℚ) / ((1 : ℤ) : ℚ)⌉ = 9007199254740993 := by
      rw [Int.ceil_eq_iff]; norm_num
    rw [this]; norm_num

set_option maxRecDepth 100000 in
theorem baseQueryInit_parts :
    baseQueryInit = dataSelect ++ fromWallets ++ usersJoin ++ ownerWhere := by
  decide

set_option maxRecDepth 100000 in
theorem countQueryInit_parts :
    countQueryInit = countSelect ++ fromWallets ++ ownerWhere := by
  decide

theorem sortClause_eq (sortBy : String) :
    sortClause sortBy = " ORDER BY " ++ (sortColumnOf sortBy).sql := by
  unfold sortClause sortColumnOf
  split_ifs <;> decide

theorem directionClause_eq (unicodeLower : Char → Char) (sortOrder : String) :
    directionClause unicodeLower sortOrder = (directionOf unicodeLower sortOrder).sql := by
  unfold directionClause directionOf
  split_ifs <;> rfl

/-- The two built texts are the texts of the plan of the request. -/
theorem buildQueries_sql (unicodeLower : Char → Char) (userID : Int)
    (req : TransactionListRequest) :
    (buildQueries unicodeLower userID req).baseQuery = (planOf unicodeLower req).dataSQL
    ∧ (buildQueries unicodeLower userID req).countQuery = (planOf unicodeLower req).countSQL := by
  obtain ⟨h1, h2, -⟩ := filterState_eq userID req
  constructor
  · show (filterState userID req).baseQuery ++ sortClause req.SortBy
        ++ directionClause unicodeLower req.SortOrder ++ paginationClause req = _
    rw [h1, sortClause_eq, directionClause_eq]
    rfl
  · show (filterState userID req).countQuery = _
    rw [h2]; rfl

theorem buildQueries_params (unicodeLower : Char → Char) (userID : Int)
    (req : TransactionListRequest) :
    ∃ rest, (buildQueries unicodeLower userID req).params = Param.int userID :: rest := by
  show ∃ rest, (filterState userID req).params = Param.int userID :: rest
  unfold filterState addEndDate addStartDate addSearch initState
  by_cases h1 : req.Search = "" <;> by_cases h2 : req.StartDate = ""
    <;> by_cases h3 : req.EndDate = ""
    <;> cases h4 : timeParse req.StartDate <;> cases h5 : timeParse req.EndDate
    <;> simp [h1, h2, h3, h4, h5]

theorem Cond.sql_and (c : Cond) : ∃ rest, c.sql = " AND " ++ rest := by
  cases c with
  | descLike n => exact ⟨"LOWER(t.description) LIKE LOWER($" ++ fmtInt n ++ ")", by
      simp [Cond.sql, String.append_assoc]; rfl⟩
  | createdGe n => exact ⟨"t.created_at >= $" ++ fmtInt n, by
      simp [Cond.sql, String.append_assoc]; rfl⟩
  | createdLt n => exact ⟨"t.created_at < $" ++ fmtInt n, by
      simp [Cond.sql, String.append_assoc]; rfl⟩

/-! ## Ownership scoping (C2) -/

theorem ownerHolds_owner (userID : Int) (rest : List Param) (r : CountRow)
    (h : ownerHolds (Param.int userID :: rest) r = true) :
    (∃ w, r.fw = some w ∧ w.user_id = userID) ∨ r.tw.user_id = userID := by
  simp only [ownerHolds, placeholder, le_refl, if_true, sub_self, Int.toNat_zero,
    List.get?_cons_zero, Bool.or_eq_true, decide_eq_true_eq] at h
  rcases h with h | h
  · left
    cases hfw : r.fw with
    | none => rw [hfw] at h; simp at h
    | some w => rw [hfw] at h; exact ⟨w, rfl, by simpa using h⟩
  · right; exact h

theorem sortRows_perm (plan : Plan) (rows : List DataRow) : (sortRows plan rows).Perm rows := by
  unfold sortRows
  cases plan.direction <;> exact List.perm_insertionSort _ _

theorem mem_selectedRows_of_mem_dataResult (like : String → String → Bool) (store : Store)
    (plan : Plan) (params : List Param) (rows : List DataRow)
    (h : dataResult like store plan params = Except.ok rows) (r : DataRow) (hr : r ∈ rows) :
    r ∈ selectedRows like store plan params := by
  unfold dataResult at h
  split_ifs at h
  injection h with h
  subst h
  exact (sortRows_perm plan _).mem_iff.mp (List.mem_of_mem_drop (List.mem_of_mem_take hr))

theorem whereHolds_of_mem_selectedRows (like : String → String → Bool) (store : Store)
    (plan : Plan) (params : List Param) (r : DataRow)
    (hr : r ∈ selectedRows like store plan params) : whereHolds like plan params r.base = true := by
  unfold selectedRows at hr
  exact (List.mem_filter.mp hr).2

/-- C2: both built queries keep the ownership predicate, with `userID` bound
to placeholder 1, at the head of their `WHERE` clause; every optional
condition follows it as a further ` AND ` conjunct; and over any store every
row the data query selects, before or after pagination, has the caller as the
owner of the sending wallet or of the receiving wallet. -/
theorem C2_ownership_scoped (unicodeLower : Char → Char) (userID : Int)
    (req : TransactionListRequest) :
    (buildQueries unicodeLower userID req).countQuery
        = countSelect ++ fromWallets ++ ownerWhere ++ (planOf unicodeLower req).filterSQL
    ∧ (buildQueries unicodeLower userID req).baseQuery
        = dataSelect ++ fromWallets ++ usersJoin ++ ownerWhere
          ++ (planOf unicodeLower req).filterSQL
          ++ (" ORDER BY " ++ (planOf unicodeLower req).orderBy.sql)
          ++ (planOf unicodeLower req).direction.sql
          ++ (" LIMIT " ++ fmtInt req.Limit ++ " OFFSET " ++ fmtInt (pageOffset req))
    ∧ placeholder (buildQueries unicodeLower userID req).params 1 = some (Param.int userID)
    ∧ (∀ c ∈ (planOf unicodeLower req).filters, ∃ rest, c.sql = " AND " ++ rest)
    ∧ (∀ (like : String → String → Bool) (store : Store) (r : DataRow),
        r ∈ selectedRows like store (planOf unicodeLower req)
            (buildQueries unicodeLower userID req).params →
          (∃ w, r.base.fw = some w ∧ w.user_id = userID) ∨ r.base.tw.user_id = userID)
    ∧ (∀ (like : String → String → Bool) (store : Store) (rows : List DataRow),
        dataResult like store (planOf unicodeLower req)
            (buildQueries unicodeLower userID req).params = Except.ok rows →
          ∀ r ∈ rows,
            (∃ w, r.base.fw = some w ∧ w.user_id = userID) ∨ r.base.tw.user_id = userID) := by
  obtain ⟨hb, hc⟩ := buildQueries_sql unicodeLower userID req
  obtain ⟨rest, hp⟩ := buildQueries_params unicodeLower userID req
  have hsel : ∀ (like : String → String → Bool) (store : Store) (r : DataRow),
      r ∈ selectedRows like store (planOf unicodeLower req)
          (buildQueries unicodeLower userID req).params →
        (∃ w, r.base.fw = some w ∧ w.user_id = userID) ∨ r.base.tw.user_id = userID := by
    intro like store r hr
    have hw := whereHolds_of_mem_selectedRows like store _ _ r hr
    rw [hp] at hw
    unfold whereHolds at hw
    rw [Bool.and_eq_true] at hw
    exact ownerHolds_owner userID rest r.base hw.1
  refine ⟨?_, ?_, ?_, ?_, hsel, ?_⟩
  · rw [hc, Plan.countSQL, countQueryInit_parts]
  · rw [hb, Plan.dataSQL, baseQueryInit_parts]; rfl
  · rw [hp]; rfl
  · intro c _; exact c.sql_and
  · intro like store rows h r hr
    exact hsel like store r (mem_selectedRows_of_mem_dataResult like store _ _ rows h r hr)

/-- C2 over the example store: the transfer user 7 sent is selected for user
7, who owns its sending wallet. -/
theorem C2_ownership_scoped_witness :
    exampleRow ∈ selectedRows likeAll exampleStore (planOf id plainRequest)
        (buildQueries id 7 plainRequest).params
    ∧ ((∃ w, exampleRow.base.fw = some w ∧ w.user_id = 7) ∨ exampleRow.base.tw.user_id = 7) :=
  ⟨by decide,
    (C2_ownership_scoped id 7 plainRequest).2.2.2.2.1 likeAll exampleStore exampleRow
      (by decide)⟩

/-! ## Count and data queries agree (C3) -/

theorem joinUsers_base (users : List UserRow) (r : CountRow) (d : DataRow)
    (h : d ∈ joinUsers users r) : d.base = r := by
  unfold joinUsers at h
  obtain ⟨u, -, rfl⟩ := List.mem_map.mp h
  rfl

theorem joinUsers_length (users : List UserRow) (r : CountRow) :
    (joinUsers users r).length = (users.filter (fun u => r.tw.user_id = u.id)).length := by
  unfold joinUsers
  rw [List.length_map]

theorem tw_mem_wallets (store : Store) (r : CountRow) (h : r ∈ countFrom store) :
    r.tw ∈ store.wallets := by
  unfold countFrom at h
  obtain ⟨t, -, h⟩ := List.mem_flatMap.mp h
  obtain ⟨fw, -, h⟩ := List.mem_flatMap.mp h
  obtain ⟨tw, htw, rfl⟩ := List.mem_map.mp h
  exact (List.mem_filter.mp htw).1

/-- Joining each row to exactly one user keeps the number of rows a predicate
on the wallet side selects. -/
theorem length_filter_flatMap_joinUsers (users : List UserRow) (P : CountRow → Bool)
    (l : List CountRow) (h : ∀ r ∈ l, (joinUsers users r).length = 1) :
    ((l.flatMap (joinUsers users)).filter (fun d => P d.base)).length = (l.filter P).length := by
  induction l with
  | nil => rfl
  | cons r rest ih =>
    have h1 := h r (List.mem_cons_self _ _)
    have ih := ih (fun x hx => h x (List.mem_cons_of_mem _ hx))
    obtain ⟨d, hd⟩ := List.length_eq_one.mp h1
    have hbase : d.base = r := joinUsers_base users r d (by rw [hd]; exact List.mem_singleton_self d)
    rw [List.flatMap_cons, List.filter_append, List.length_append, ih, hd]
    by_cases hP : P r = true
    · simp [List.filter_cons, hbase, hP]; omega
    · simp [List.filter_cons, hbase, hP]

theorem countResult_eq_length_selectedRows (like : String → String → Bool) (store : Store)
    (plan : Plan) (params : List Param) (hkey : UsersKeyed store) :
    countResult like store plan params = ((selectedRows like store plan params).length : Int) := by
  unfold countResult selectedRows dataFrom
  rw [length_filter_flatMap_joinUsers store.users (whereHolds like plan params)]
  intro r hr
  rw [joinUsers_length]
  exact hkey r.tw (tw_mem_wallets store r hr)

theorem repo_events (unicodeLower : Char → Char) (db : DB) (userID : Int)
    (req : TransactionListRequest) :
    (repoListTransactions unicodeLower db userID req).events
        = [Event.countQuery (buildQueries unicodeLower userID req).countQuery
            (buildQueries unicodeLower userID req).params]
    ∨ (repoListTransactions unicodeLower db userID req).events
        = [Event.countQuery (buildQueries unicodeLower userID req).countQuery
            (buildQueries unicodeLower userID req).params,
          Event.dataQuery (buildQueries unicodeLower userID req).baseQuery
            (buildQueries unicodeLower userID req).params] := by
  unfold repoListTransactions
  simp only []
  split
  · left; rfl
  · split
    · right; rfl
    · split <;> (right; rfl)

/-- C3 (as amended): for every request both queries carry the same sequence
of filter conditions, text for text, and are executed with the one parameter
list; the data query differs from the count query only in its select list,
its join to `users`, its `ORDER BY` and its `LIMIT`/`OFFSET`; and over every
store in which each wallet's `user_id` matches exactly one row of `users`,
the count is the number of rows the data query returns without pagination. -/
theorem C3_count_matches_data (unicodeLower : Char → Char) (userID : Int)
    (req : TransactionListRequest) (db : DB) (like : String → String → Bool) (store : Store)
    (hkey : UsersKeyed store) :
    (buildQueries unicodeLower userID req).countQuery
        = countSelect ++ fromWallets ++ ownerWhere
          ++ String.join ((planOf unicodeLower req).filters.map Cond.sql)
    ∧ (buildQueries unicodeLower userID req).baseQuery
        = dataSelect ++ fromWallets ++ usersJoin ++ ownerWhere
          ++ String.join ((planOf unicodeLower req).filters.map Cond.sql)
          ++ (" ORDER BY " ++ (planOf unicodeLower req).orderBy.sql)
          ++ (planOf unicodeLower req).direction.sql
          ++ (" LIMIT " ++ fmtInt req.Limit ++ " OFFSET " ++ fmtInt (pageOffset req))
    ∧ ((repoListTransactions unicodeLower db userID req).events
          = [Event.countQuery (buildQueries unicodeLower userID req).countQuery
              (buildQueries unicodeLower userID req).params]
        ∨ (repoListTransactions unicodeLower db userID req).events
          = [Event.countQuery (buildQueries unicodeLower userID req).countQuery
              (buildQueries unicodeLower userID req).params,
            Event.dataQuery (buildQueries unicodeLower userID req).baseQuery
              (buildQueries unicodeLower userID req).params])
    ∧ countResult like store (planOf unicodeLower req)
          (buildQueries unicodeLower userID req).params
        = ((selectedRows like store (planOf unicodeLower req)
            (buildQueries unicodeLower userID req).params).length : Int) := by
  obtain ⟨hb, hc⟩ := buildQueries_sql unicodeLower userID req
  refine ⟨?_, ?_, repo_events unicodeLower db userID req,
    countResult_eq_length_selectedRows like store _ _ hkey⟩
  · rw [hc, Plan.countSQL, countQueryInit_parts]; rfl
  · rw [hb, Plan.dataSQL, baseQueryInit_parts]; rfl

/-- C3, over the example store, whose two wallets each name one user. -/
theorem C3_count_matches_data_witness :
    UsersKeyed exampleStore
    ∧ countResult likeAll exampleStore (planOf id plainRequest)
          (buildQueries id 7 plainRequest).params
        = ((selectedRows likeAll exampleStore (planOf id plainRequest)
            (buildQueries id 7 plainRequest).params).length : Int) :=
  ⟨by decide,
    (C3_count_matches_data id 7 plainRequest downDB likeAll exampleStore (by decide)).2.2.2⟩

/-- C3 fails as stated: over a store whose wallet names a user missing from
`users`, the count query counts the caller's transaction and the data query,
which joins `users`, returns no row. -/
theorem C3_counterexample :
    countResult likeAll danglingStore (planOf id plainRequest)
        (buildQueries id 7 plainRequest).params = 1
    ∧ selectedRows likeAll danglingStore (planOf id plainRequest)
        (buildQueries id 7 plainRequest).params = [] := by
  constructor <;> decide

/-! ## Date validation in the handler (C4) -/

/-- C4: a bound request whose `StartDate` is non-empty and does not parse as
a calendar date `YYYY-MM-DD` (such as `2024-13-40`) is answered with HTTP 400
and the start-date message; one whose `StartDate` is empty or valid and whose
`EndDate` is non-empty and does not parse is answered with HTTP 400 and the
end-date message. In both cases the service is not called and no statement
is executed. -/
theorem C4_invalid_date_rejected (service : Int → TransactionListRequest → ServiceResult)
    (userID : Int) (req : TransactionListRequest) :
    (req.StartDate ≠ "" → timeParse req.StartDate = none →
      handlerListTransactions service userID (Except.ok req)
        = { status := 400, body := Body.error "Invalid start date format. Use YYYY-MM-DD",
            events := [] })
    ∧ (req.EndDate ≠ "" → timeParse req.EndDate = none →
        (req.StartDate = "" ∨ (timeParse req.StartDate).isSome) →
      handlerListTransactions service userID (Except.ok req)
        = { status := 400, body := Body.error "Invalid end date format. Use YYYY-MM-DD",
            events := [] })
    ∧ timeParse "2024-13-40" = none := by
  refine ⟨?_, ?_, by decide⟩
  · intro h1 h2
    simp [handlerListTransactions, h1, h2]
  · intro h1 h2 h3
    have hs : ¬ (req.StartDate ≠ "" ∧ (timeParse req.StartDate).isNone = true) := by
      rintro ⟨ha, hb⟩
      rcases h3 with h3 | h3
      · exact ha h3
      · rw [Option.isNone_iff_eq_none] at hb
        rw [hb] at h3; simp at h3
    simp only [handlerListTransactions]
    rw [if_neg hs, if_pos ⟨h1, by rw [h2]; rfl⟩]

/-- C4 at `startDate = "2024-13-40"`, over a store that would fail: HTTP 400,
and nothing reached the service or the store. -/
theorem C4_invalid_date_rejected_witness :
    handlerListTransactions (serviceListTransactions amd64Conv id downDB) 7
        (Except.ok { plainRequest with StartDate := "2024-13-40" })
      = { status := 400, body := Body.error "Invalid start date format. Use YYYY-MM-DD",
          events := [] } :=
  (C4_invalid_date_rejected (serviceListTransactions amd64Conv id downDB) 7
    { plainRequest with StartDate := "2024-13-40" }).1 (by decide) (by decide)

/-! ## Defaults for page and limit (C5) -/

theorem applyDefaults_eq (req : TransactionListRequest) :
    applyDefaults req
      = { req with Limit := if req.Limit ≤ 0 then 10 else req.Limit,
                   Page := if req.Page ≤ 0 then 1 else req.Page } := by
  unfold applyDefaults
  by_cases h1 : req.Limit ≤ 0 <;> by_cases h2 : req.Page ≤ 0 <;> simp [h1, h2]

/-- C5: for every bound request that passes date validation, the handler
calls the service exactly once, with `Limit` replaced by 10 when it is `≤ 0`,
`Page` replaced by 1 when it is `≤ 0` and every other field unchanged; so the
service, and the repository below it, receive `Limit ≥ 1` and `Page ≥ 1`, and
the divisor `float64(req.Limit)` of the pagination calculator is a finite
non-zero value. -/
theorem C5_defaults_applied (service : Int → TransactionListRequest → ServiceResult)
    (implDep : F64 → Int) (unicodeLower : Char → Char) (db : DB)
    (userID : Int) (req : TransactionListRequest)
    (hstart : req.StartDate = "" ∨ (timeParse req.StartDate).isSome)
    (hend : req.EndDate = "" ∨ (timeParse req.EndDate).isSome)
    (hint : req.Limit ≤ maxInt64) :
    (handlerListTransactions service userID (Except.ok req)).events
        = Event.serviceCall userID
            { Page := if req.Page ≤ 0 then 1 else req.Page,
              Limit := if req.Limit ≤ 0 then 10 else req.Limit,
              Search := req.Search, SortBy := req.SortBy, SortOrder := req.SortOrder,
              StartDate := req.StartDate, EndDate := req.EndDate }
          :: (service userID (applyDefaults req)).events
    ∧ (handlerListTransactions (serviceListTransactions implDep unicodeLower db) userID
          (Except.ok req)).events
        = Event.serviceCall userID (applyDefaults req)
          :: (repoListTransactions unicodeLower db userID (applyDefaults req)).events
    ∧ 1 ≤ (applyDefaults req).Limit
    ∧ 1 ≤ (applyDefaults req).Page
    ∧ (∃ y : ℚ, F64.ofInt (applyDefaults req).Limit = F64.fin y ∧ y ≠ 0) := by
  have hs : ¬ (req.StartDate ≠ "" ∧ (timeParse req.StartDate).isNone = true) := by
    rintro ⟨ha, hb⟩
    rcases hstart with h | h
    · exact ha h
    · rw [Option.isNone_iff_eq_none] at hb
      rw [hb] at h; simp at h
  have he : ¬ (req.EndDate ≠ "" ∧ (timeParse req.EndDate).isNone = true) := by
    rintro ⟨ha, hb⟩
    rcases hend with h | h
    · exact ha h
    · rw [Option.isNone_iff_eq_none] at hb
      rw [hb] at h; simp at h
  have hev : ∀ svc : Int → TransactionListRequest → ServiceResult,
      (handlerListTransactions svc userID (Except.ok req)).events
        = Event.serviceCall userID (applyDefaults req) :: (svc userID (applyDefaults req)).events := by
    intro svc
    simp only [handlerListTransactions]
    rw [if_neg hs, if_neg he]
    cases (svc userID (applyDefaults req)).err <;> rfl
  have hL : 1 ≤ (applyDefaults req).Limit := by
    rw [applyDefaults_eq]
    show 1 ≤ (if req.Limit ≤ 0 then 10 else req.Limit)
    split_ifs <;> omega
  have hP : 1 ≤ (applyDefaults req).Page := by
    rw [applyDefaults_eq]
    show 1 ≤ (if req.Page ≤ 0 then 1 else req.Page)
    split_ifs <;> omega
  have hLm : (applyDefaults req).Limit ≤ maxInt64 := by
    rw [applyDefaults_eq]
    show (if req.Limit ≤ 0 then 10 else req.Limit) ≤ maxInt64
    split_ifs
    · unfold maxInt64; norm_num
    · exact hint
  refine ⟨?_, ?_, hL, hP, ?_⟩
  · rw [hev service, applyDefaults_eq]
  · rw [hev]
    congr 1
    show (serviceOfRepo implDep _ _).events = _
    unfold serviceOfRepo
    cases (repoListTransactions unicodeLower db userID (applyDefaults req)).err <;> rfl
  · obtain ⟨h1, h2⟩ := F64.ofInt_pos _ hL hLm
    exact ⟨_, h1, h2.ne.symm⟩

/-- C5 at `limit = 0`, `page = -3`: the service receives `Limit = 10`, `Page = 1`. -/
theorem C5_defaults_applied_witness :
    (handlerListTransactions (serviceListTransactions amd64Conv id emptyDB) 7
        (Except.ok { plainRequest with Limit := 0, Page := -3 })).events
      = Event.serviceCall 7
          { Page := 1, Limit := 10, Search := "", SortBy := "", SortOrder := "",
            StartDate := "", EndDate := "" }
        :: (serviceListTransactions amd64Conv id emptyDB 7
            (applyDefaults { plainRequest with Limit := 0, Page := -3 })).events :=
  (C5_defaults_applied (serviceListTransactions amd64Conv id emptyDB) amd64Conv id emptyDB 7
    { plainRequest with Limit := 0, Page := -3 } (Or.inl rfl) (Or.inl rfl)
    (by unfold maxInt64; decide)).1

/-! ## Date bounds (C6) -/

theorem timeParse_empty : timeParse "" = none := by decide

theorem timeParse_eq_midnight (s : String) (year month day : Int)
    (h : parseYMD s = some (year, month, day)) : timeParse s = some (midnight year month day) := by
  unfold timeParse
  rw [h]; rfl

/-- A parsed date is a calendar date: month in `1..12`, day in the month. -/
theorem parseYMD_valid (s : String) (year month day : Int)
    (h : parseYMD s = some (year, month, day)) :
    1 ≤ month ∧ month ≤ 12 ∧ 1 ≤ day ∧ day ≤ daysIn month year := by
  unfold parseYMD at h
  split at h
  · split at h
    · simp only at h
      split at h
      · exact absurd h (by simp)
      · split at h
        · exact absurd h (by simp)
        · simp only [Option.some.injEq, Prod.mk.injEq] at h
          obtain ⟨rfl, rfl, rfl⟩ := h
          omega
    · exact absurd h (by simp)
  · exact absurd h (by simp)

theorem daysBeforeYear_succ (year : Int) :
    daysBeforeYear (year + 1) = daysBeforeYear year + (if isLeap year then 366 else 365) := by
  unfold daysBeforeYear isLeap
  have e : year + 1 - 1 = year := by ring
  rw [e]
  by_cases h4 : year % 4 = 0 <;> by_cases h100 : year % 100 = 0
    <;> by_cases h400 : year % 400 = 0 <;> simp [h4, h100, h400] <;> omega

/-- Midnight of the next calendar day is 24 hours after midnight. -/
theorem midnight_nextDay (year month day : Int) (hm1 : 1 ≤ month) (hm12 : month ≤ 12)
    (hd1 : 1 ≤ day) (hd : day ≤ daysIn month year) :
    midnight (nextDay year month day).1 (nextDay year month day).2.1
        (nextDay year month day).2.2
      = Time.add (midnight year month day) (24 * hour) := by
  have key : daysFromCivil (nextDay year month day).1 (nextDay year month day).2.1
      (nextDay year month day).2.2 = daysFromCivil year month day + 1 := by
    unfold nextDay
    split_ifs with h1 h2
    · simp only [daysFromCivil]; ring
    · have hday : day = daysIn month year := le_antisymm hd (not_lt.mp h1)
      simp only [daysFromCivil]
      rw [hday]
      have hcases : month = 1 ∨ month = 2 ∨ month = 3 ∨ month = 4 ∨ month = 5 ∨ month = 6
          ∨ month = 7 ∨ month = 8 ∨ month = 9 ∨ month = 10 ∨ month = 11 := by omega
      rcases hcases with h | h | h | h | h | h | h | h | h | h | h <;> subst h
        <;> cases hl : isLeap year <;> simp [daysBeforeMonth, daysIn, hl] <;> ring
    · have hmonth : month = 12 := by omega
      have hday : day = 31 := by
        have : daysIn month year = 31 := by rw [hmonth]; simp [daysIn]
        omega
      subst hmonth hday
      simp only [daysFromCivil]
      rw [daysBeforeYear_succ]
      cases hl : isLeap year <;> cases hl2 : isLeap (year + 1)
        <;> simp [daysBeforeMonth] <;> omega
  unfold midnight Time.add
  rw [key]; ring

theorem endDate_cond (userID : Int) (req : TransactionListRequest) (t : Time)
    (h : timeParse req.EndDate = some t) :
    Cond.createdLt ((filtersOf req).length + 1) ∈ filtersOf req
    ∧ placeholder (filterState userID req).params ((filtersOf req).length + 1)
        = some (Param.time (Time.add t (24 * hour))) := by
  have hne : req.EndDate ≠ "" := by
    intro he; rw [he, timeParse_empty] at h; exact absurd h (by simp)
  unfold filterState addEndDate addStartDate addSearch initState filtersOf searchConds
    startConds endConds placeholder
  by_cases h1 : req.Search = "" <;> by_cases h2 : req.StartDate = ""
    <;> cases h4 : timeParse req.StartDate
    <;> simp [h1, h2, hne, h4, h]

theorem startDate_cond (userID : Int) (req : TransactionListRequest) (t : Time)
    (h : timeParse req.StartDate = some t) :
    Cond.createdGe ((searchConds req).length + 2) ∈ filtersOf req
    ∧ placeholder (filterState userID req).params ((searchConds req).length + 2)
        = some (Param.time t) := by
  have hne : req.StartDate ≠ "" := by
    intro he; rw [he, timeParse_empty] at h; exact absurd h (by simp)
  unfold filterState addEndDate addStartDate addSearch initState filtersOf searchConds
    startConds endConds placeholder
  by_cases h1 : req.Search = "" <;> by_cases h3 : req.EndDate = ""
    <;> cases h5 : timeParse req.EndDate
    <;> simp [h1, h3, hne, h5, h]

/-- C6: for every request whose `EndDate` is the valid date `d`, both queries
carry the strict condition `t.created_at < $n` with `$n` bound to midnight of
`d` plus exactly 24 hours, so a transaction created at 23:59:59 on `d`
satisfies it and one created at 00:00:00 on the next calendar day does not;
and for every valid `StartDate` `s` both carry `t.created_at >= $n` with `$n`
bound to midnight of `s`, which a transaction created at 00:00:00 on `s`
satisfies. -/
theorem C6_date_bounds (unicodeLower : Char → Char) (userID : Int)
    (req : TransactionListRequest) :
    (buildQueries unicodeLower userID req).baseQuery = (planOf unicodeLower req).dataSQL
    ∧ (buildQueries unicodeLower userID req).countQuery = (planOf unicodeLower req).countSQL
    ∧ (∀ year month day : Int, parseYMD req.EndDate = some (year, month, day) →
        ∃ n : Int, Cond.createdLt n ∈ (planOf unicodeLower req).filters
          ∧ (Cond.createdLt n).sql = " AND t.created_at < $" ++ fmtInt n
          ∧ placeholder (buildQueries unicodeLower userID req).params n
              = some (Param.time (midnight year month day + 24 * hour))
          ∧ ∀ (like : String → String → Bool) (r : CountRow),
              (r.t.created_at = midnight year month day + (23 * 3600 + 59 * 60 + 59) * 1000000000 →
                (Cond.createdLt n).holds like (buildQueries unicodeLower userID req).params r
                  = true)
              ∧ (r.t.created_at = midnight (nextDay year month day).1
                    (nextDay year month day).2.1 (nextDay year month day).2.2 →
                (Cond.createdLt n).holds like (buildQueries unicodeLower userID req).params r
                  = false))
    ∧ (∀ year month day : Int, parseYMD req.StartDate = some (year, month, day) →
        ∃ n : Int, Cond.createdGe n ∈ (planOf unicodeLower req).filters
          ∧ (Cond.createdGe n).sql = " AND t.created_at >= $" ++ fmtInt n
          ∧ placeholder (buildQueries unicodeLower userID req).params n
              = some (Param.time (midnight year month day))
          ∧ ∀ (like : String → String → Bool) (r : CountRow),
              r.t.created_at = midnight year month day →
                (Cond.createdGe n).holds like (buildQueries unicodeLower userID req).params r
                  = true) := by
  obtain ⟨hb, hc⟩ := buildQueries_sql unicodeLower userID req
  refine ⟨hb, hc, ?_, ?_⟩
  · intro year month day hp
    obtain ⟨hmem, hph⟩ := endDate_cond userID req _ (timeParse_eq_midnight _ _ _ _ hp)
    obtain ⟨hm1, hm12, hd1, hd⟩ := parseYMD_valid _ _ _ _ hp
    have hph2 : placeholder (buildQueries unicodeLower userID req).params
        ((filtersOf req).length + 1) = some (Param.time (midnight year month day + 24 * hour)) :=
      hph
    refine ⟨_, hmem, rfl, hph2, ?_⟩
    intro like r
    constructor
    · intro hr
      simp only [Cond.holds, hph2, hr, decide_eq_true_eq]
      have key : ∀ m : Int, m + (23 * 3600 + 59 * 60 + 59) * 1000000000 < m + 24 * hour := by
        intro m; unfold hour; omega
      exact key _
    · intro hr
      rw [midnight_nextDay year month day hm1 hm12 hd1 hd] at hr
      simp only [Cond.holds, hph2, hr, decide_eq_false_iff_not, Time.add]
      exact lt_irrefl _
  · intro year month day hp
    obtain ⟨hmem, hph⟩ := startDate_cond userID req _ (timeParse_eq_midnight _ _ _ _ hp)
    have hph2 : placeholder (buildQueries unicodeLower userID req).params
        ((searchConds req).length + 2) = some (Param.time (midnight year month day)) := hph
    refine ⟨_, hmem, rfl, hph2, ?_⟩
    intro like r hr
    simp only [Cond.holds, hph2, hr, decide_eq_true_eq, le_refl]

/-- C6 at `endDate = "2024-01-31"`: the bound is midnight of 31 January 2024
plus 24 hours. -/
theorem C6_date_bounds_witness :
    parseYMD januaryRequest.EndDate = some (2024, 1, 31)
    ∧ ∃ n : Int, Cond.createdLt n ∈ (planOf id januaryRequest).filters
        ∧ placeholder (buildQueries id 7 januaryRequest).params n
            = some (Param.time (midnight 2024 1 31 + 24 * hour)) :=
  ⟨by decide,
    ((C6_date_bounds id 7 januaryRequest).2.2.1 2024 1 31 (by decide)).imp
      (fun _ h => ⟨h.1, h.2.2.1⟩)⟩

/-! ## Sorting (C7) -/

theorem isPrefixOf_append_foreign (pat : List Char) (f : Char) (hf : f ∉ pat) :
    ∀ (S Y : List Char), pat.isPrefixOf (S ++ f :: Y) = pat.isPrefixOf (S ++ [f]) := by
  induction pat with
  | nil => intro S Y; simp
  | cons p ps ih =>
    intro S Y
    have hpf : p ≠ f := fun h => hf (by rw [h]; exact List.mem_cons_self _ _)
    have hps : f ∉ ps := fun h => hf (List.mem_cons_of_mem _ h)
    cases S with
    | nil =>
      have hb : (p == f) = false := by simpa using hpf
      simp [List.isPrefixOf, hb]
    | cons s S' =>
      have h := ih hps S' Y
      simp only [List.cons_append, List.isPrefixOf]
      show (p == s && ps.isPrefixOf (S' ++ f :: Y)) = (p == s && ps.isPrefixOf (S' ++ [f]))
      rw [h]

theorem countOcc_append_foreign (pat : List Char) (hne : pat ≠ []) (f : Char) (hf : f ∉ pat)
    (X Y : List Char) :
    countOcc pat (X ++ f :: Y) = countOcc pat (X ++ [f]) + countOcc pat Y := by
  induction X with
  | nil =>
    cases pat with
    | nil => exact absurd rfl hne
    | cons p ps =>
      have hpf : p ≠ f := fun h => hf (by rw [h]; exact List.mem_cons_self _ _)
      simp [countOcc, List.isPrefixOf, hpf]
  | cons c X' ih =>
    have h1 := isPrefixOf_append_foreign pat f hf (c :: X') Y
    simp only [List.cons_append] at h1 ⊢
    simp only [countOcc, h1, ih]
    omega

/-- A text ending in a character foreign to `pat` shares no occurrence with
what follows it. -/
theorem countOcc_append_of_last (pat : List Char) (hne : pat ≠ []) (X' : List Char) (f : Char)
    (hf : f ∉ pat) (Y : List Char) :
    countOcc pat ((X' ++ [f]) ++ Y) = countOcc pat (X' ++ [f]) + countOcc pat Y := by
  rw [List.append_assoc]
  exact countOcc_append_foreign pat hne f hf X' Y

/-- Characters other than the first of `pat` begin no occurrence. -/
theorem countOcc_skip (p : Char) (ps : List Char) (X Y : List Char) (h : ∀ c ∈ X, c ≠ p) :
    countOcc (p :: ps) (X ++ Y) = countOcc (p :: ps) Y := by
  induction X with
  | nil => rfl
  | cons c X' ih =>
    have hc : p ≠ c := fun e => h c (List.mem_cons_self _ _) e.symm
    have hb : (p == c) = false := by simpa using hc
    have h2 := ih (fun x hx => h x (List.mem_cons_of_mem _ hx))
    simp only [List.cons_append, countOcc, List.isPrefixOf, hb, Bool.false_and]
    show (if false = true then 1 else 0) + countOcc (p :: ps) (X' ++ Y) = _
    rw [h2]; simp

theorem digitChar_isDigit (k : Nat) (h : k < 10) : (Nat.digitChar k).isDigit = true := by
  interval_cases k <;> decide

theorem toDigitsCore_isDigit (fuel : Nat) :
    ∀ (n : Nat) (acc : List Char), (∀ c ∈ acc, c.isDigit = true) →
      ∀ c ∈ Nat.toDigitsCore 10 fuel n acc, c.isDigit = true := by
  induction fuel with
  | zero => intro n acc hacc c hc; simpa [Nat.toDigitsCore] using hacc c hc
  | succ k ih =>
    intro n acc hacc c hc
    have hd : (Nat.digitChar (n % 10)).isDigit = true :=
      digitChar_isDigit _ (Nat.mod_lt _ (by norm_num))
    have hacc2 : ∀ x ∈ Nat.digitChar (n % 10) :: acc, x.isDigit = true := by
      intro x hx
      rcases List.mem_cons.mp hx with h | h
      · rw [h]; exact hd
      · exact hacc x h
    simp only [Nat.toDigitsCore] at hc
    split at hc
    · exact hacc2 c hc
    · exact ih _ _ hacc2 c hc

/-- The `%d` rendering of an `int` holds decimal digits and at most a sign. -/
theorem fmtInt_chars (n : Int) : ∀ c ∈ (fmtInt n).toList, c.isDigit = true ∨ c = '-' := by
  have hnat : ∀ m : Nat, ∀ c ∈ (toString m).toList, c.isDigit = true := by
    intro m c hc
    exact toDigitsCore_isDigit _ m [] (by simp) c hc
  intro c hc
  cases n with
  | ofNat m => left; exact hnat m c hc
  | negSucc m =>
    have : (fmtInt (Int.negSucc m)).toList = '-' :: (toString (m + 1)).toList := rfl
    rw [this] at hc
    rcases List.mem_cons.mp hc with h | h
    · right; exact h
    · left; exact hnat _ c h

theorem fmtInt_ne_O (n : Int) : ∀ c ∈ (fmtInt n).toList, c ≠ 'O' := by
  intro c hc
  rcases fmtInt_chars n c hc with h | h
  · intro e; rw [e] at h; exact absurd h (by decide)
  · rw [h]; decide

theorem countOcc_append (pat X Y : List Char) (hne : pat ≠ [])
    (h : lastForeign pat X = true) :
    countOcc pat (X ++ Y) = countOcc pat X + countOcc pat Y := by
  rcases List.eq_nil_or_concat X with rfl | ⟨L, b, rfl⟩
  · simp [countOcc]
  · rw [List.concat_eq_append] at h ⊢
    have hb : b ∉ pat := by
      simpa [lastForeign] using h
    exact countOcc_append_of_last pat hne L b hb Y

theorem filtersOf_cases (req : TransactionListRequest) :
    filtersOf req = [] ∨ filtersOf req = [Cond.descLike 2] ∨ filtersOf req = [Cond.createdGe 2]
    ∨ filtersOf req = [Cond.createdLt 2]
    ∨ filtersOf req = [Cond.descLike 2, Cond.createdGe 3]
    ∨ filtersOf req = [Cond.descLike 2, Cond.createdLt 3]
    ∨ filtersOf req = [Cond.createdGe 2, Cond.createdLt 3]
    ∨ filtersOf req = [Cond.descLike 2, Cond.createdGe 3, Cond.createdLt 4] := by
  unfold filtersOf searchConds startConds endConds
  by_cases h1 : req.Search = "" <;> by_cases h2 : req.StartDate = ""
    <;> by_cases h3 : req.EndDate = ""
    <;> cases h4 : timeParse req.StartDate <;> cases h5 : timeParse req.EndDate
    <;> simp [h1, h2, h3, h4, h5]

set_option maxRecDepth 100000 in
theorem countOcc_filters (req : TransactionListRequest) (Y : List Char) :
    countOcc orderByChars ((String.join ((filtersOf req).map Cond.sql)).toList ++ Y)
      = countOcc orderByChars Y := by
  have hne : orderByChars ≠ [] := by decide
  have hz : ∀ k : Nat, k = 0 → k + countOcc orderByChars Y = countOcc orderByChars Y :=
    fun k hk => by rw [hk, Nat.zero_add]
  rcases filtersOf_cases req with h | h | h | h | h | h | h | h <;> rw [h]
    <;> rw [countOcc_append _ _ _ hne (by decide)]
    <;> apply hz
    <;> decide

set_option maxRecDepth 100000 in
theorem baseQueryInit_chars :
    baseQueryInit.toList = baseQueryInit.toList.take 545 ++ '\n' :: [' ', ' ', ' ', ' '] := by
  decide

set_option maxRecDepth 100000 in
theorem countOcc_baseQueryInit :
    countOcc orderByChars (baseQueryInit.toList.take 545 ++ ['\n']) = 0 := by
  decide

theorem countOcc_init (Y : List Char) :
    countOcc orderByChars (baseQueryInit.toList ++ Y) = countOcc orderByChars Y := by
  rw [baseQueryInit_chars, List.append_assoc, List.cons_append,
    countOcc_append_foreign orderByChars (by decide) '\n' (by decide), countOcc_baseQueryInit,
    Nat.zero_add]
  exact countOcc_skip 'O' _ [' ', ' ', ' ', ' '] Y (by decide)

theorem countOcc_sortClause (sortBy : String) (Y : List Char) :
    countOcc orderByChars ((" ORDER BY " ++ (sortColumnOf sortBy).sql).toList ++ Y)
      = 1 + countOcc orderByChars Y := by
  have hne : orderByChars ≠ [] := by decide
  have h1 : ∀ k : Nat, k = 1 → k + countOcc orderByChars Y = 1 + countOcc orderByChars Y :=
    fun k hk => by rw [hk]
  cases sortColumnOf sortBy <;> rw [countOcc_append _ _ _ hne (by decide)] <;> apply h1
    <;> decide

theorem countOcc_direction (d : Direction) (Y : List Char) :
    countOcc orderByChars (d.sql.toList ++ Y) = countOcc orderByChars Y := by
  have hne : orderByChars ≠ [] := by decide
  have hz : ∀ k : Nat, k = 0 → k + countOcc orderByChars Y = countOcc orderByChars Y :=
    fun k hk => by rw [hk, Nat.zero_add]
  cases d <;> rw [countOcc_append _ _ _ hne (by decide)] <;> apply hz <;> decide

theorem countOcc_pagination (limit offset : Int) :
    countOcc orderByChars (" LIMIT " ++ fmtInt limit ++ " OFFSET " ++ fmtInt offset).toList = 0 := by
  have e : (" LIMIT " ++ fmtInt limit ++ " OFFSET " ++ fmtInt offset).toList
      = [' ', 'L', 'I', 'M', 'I', 'T', ' '] ++ ((fmtInt limit).toList
          ++ ([' '] ++ 'O' :: 'F' :: (['F', 'S', 'E', 'T', ' ']
          ++ ((fmtInt offset).toList ++ [])))) := by
    simp [String.toList, String.data_append]
  have hO : orderByChars = 'O' :: ['R', 'D', 'E', 'R', ' ', 'B', 'Y'] := by decide
  have step : ∀ W : List Char,
      countOcc ('O' :: ['R', 'D', 'E', 'R', ' ', 'B', 'Y']) ('O' :: 'F' :: W)
        = countOcc ('O' :: ['R', 'D', 'E', 'R', ' ', 'B', 'Y']) ('F' :: W) := by
    intro W
    simp [countOcc, List.isPrefixOf]
  rw [e, hO, countOcc_skip 'O' _ _ _ (by decide), countOcc_skip 'O' _ _ _ (fmtInt_ne_O limit),
    countOcc_skip 'O' _ [' '] _ (by decide), step]
  change countOcc _ (['F', 'F', 'S', 'E', 'T', ' '] ++ ((fmtInt offset).toList ++ [])) = 0
  rw [countOcc_skip 'O' _ _ _ (by decide), countOcc_skip 'O' _ _ _ (fmtInt_ne_O offset)]
  rfl

/-! ## Sorting: the clause (C7) -/

theorem occurrences_baseQuery (unicodeLower : Char → Char) (userID : Int)
    (req : TransactionListRequest) :
    occurrences "ORDER BY" (buildQueries unicodeLower userID req).baseQuery = 1 := by
  have hb := (buildQueries_sql unicodeLower userID req).1
  have e : (buildQueries unicodeLower userID req).baseQuery.toList
      = baseQueryInit.toList ++ ((String.join ((filtersOf req).map Cond.sql)).toList
        ++ ((" ORDER BY " ++ (sortColumnOf req.SortBy).sql).toList
        ++ ((directionOf unicodeLower req.SortOrder).sql.toList
        ++ (" LIMIT " ++ fmtInt req.Limit ++ " OFFSET " ++ fmtInt (pageOffset req)).toList))) := by
    rw [hb]
    simp only [Plan.dataSQL, Plan.filterSQL, planOf, String.toList, String.data_append,
      List.append_assoc]
  show countOcc orderByChars _ = 1
  rw [e, countOcc_init, countOcc_filters, countOcc_sortClause, countOcc_direction,
    countOcc_pagination]

/-- C7: the data query has exactly one `ORDER BY` clause; its column is
`t.created_at` for `SortBy = "date"`, `t.amount` for `"amount"`,
`recipient_name` for `"recipient"` and `t.created_at` for every other value,
the empty string included; its direction is `ASC` exactly when `SortOrder`
lower-cased equals `"asc"` and `DESC` otherwise; with both omitted the clause
is `ORDER BY t.created_at DESC`. -/
theorem C7_order_by (unicodeLower : Char → Char) (userID : Int)
    (req : TransactionListRequest) :
    (buildQueries unicodeLower userID req).baseQuery
        = (filterState userID req).baseQuery ++ sortClause req.SortBy
          ++ directionClause unicodeLower req.SortOrder ++ paginationClause req
    ∧ (filterState userID req).baseQuery
        = baseQueryInit ++ String.join ((filtersOf req).map Cond.sql)
    ∧ occurrences "ORDER BY" (buildQueries unicodeLower userID req).baseQuery = 1
    ∧ (req.SortBy = "date" → sortClause req.SortBy = " ORDER BY t.created_at")
    ∧ (req.SortBy = "amount" → sortClause req.SortBy = " ORDER BY t.amount")
    ∧ (req.SortBy = "recipient" → sortClause req.SortBy = " ORDER BY recipient_name")
    ∧ (req.SortBy ≠ "date" → req.SortBy ≠ "amount" → req.SortBy ≠ "recipient" →
        sortClause req.SortBy = " ORDER BY t.created_at")
    ∧ (directionClause unicodeLower req.SortOrder = " ASC"
        ↔ toLower unicodeLower req.SortOrder = "asc")
    ∧ (toLower unicodeLower req.SortOrder ≠ "asc" →
        directionClause unicodeLower req.SortOrder = " DESC")
    ∧ (req.SortBy = "" → req.SortOrder = "" →
        sortClause req.SortBy ++ directionClause unicodeLower req.SortOrder
          = " ORDER BY t.created_at DESC") := by
  refine ⟨rfl, (filterState_eq userID req).1, occurrences_baseQuery unicodeLower userID req,
    ?_, ?_, ?_, ?_, ?_, ?_, ?_⟩
  · intro h; rw [h]; decide
  · intro h; rw [h]; decide
  · intro h; rw [h]; decide
  · intro h1 h2 h3; simp [sortClause, h1, h2, h3]
  · unfold directionClause
    constructor
    · intro h
      by_contra hc
      rw [if_neg hc] at h
      exact absurd h (by decide)
    · intro h; rw [if_pos h]
  · intro h; unfold directionClause; rw [if_neg h]
  · intro h1 h2
    rw [h1, h2]
    have : toLower unicodeLower "" = "" := rfl
    unfold directionClause
    rw [this]
    decide

/-- C7 at `sortBy = "recipient"`, `sort = "ASC"`. -/
theorem C7_order_by_witness :
    sortClause "recipient" = " ORDER BY recipient_name"
    ∧ directionClause id "ASC" = " ASC" :=
  ⟨(C7_order_by id 7 { plainRequest with SortBy := "recipient", SortOrder := "ASC" }).2.2.2.2.2.1
      rfl,
    (C7_order_by id 7 { plainRequest with SortBy := "recipient", SortOrder := "ASC" }).2.2.2.2.2.2.2.1.mpr
      (by decide)⟩

/-! ## Pagination (C8) -/

theorem wrapInt64_of_range (x : Int) (h1 : minInt64 ≤ x) (h2 : x ≤ maxInt64) :
    wrapInt64 x = x := by
  unfold wrapInt64
  unfold minInt64 at h1
  unfold maxInt64 at h2
  omega

theorem pageOffset_eq (req : TransactionListRequest) (hP : 1 ≤ req.Page) (hL : 1 ≤ req.Limit)
    (hfit : (req.Page - 1) * req.Limit ≤ maxInt64) :
    pageOffset req = (req.Page - 1) * req.Limit ∧ 0 ≤ (req.Page - 1) * req.Limit := by
  have h0 : 0 ≤ (req.Page - 1) * req.Limit := mul_nonneg (by omega) (by omega)
  have hle : req.Page - 1 ≤ (req.Page - 1) * req.Limit := by nlinarith
  unfold pageOffset
  rw [wrapInt64_of_range (req.Page - 1) (by unfold minInt64; omega) (by omega),
    wrapInt64_of_range _ (by unfold minInt64; omega) hfit]
  exact ⟨rfl, h0⟩

/-- C8 (as amended): for every request with `Page ≥ 1` and `Limit ≥ 1` whose
product `(Page - 1) * Limit` fits the 64-bit `int`, the data query ends with
`LIMIT` equal to `Limit` and `OFFSET` equal to `(Page - 1) * Limit`, which is
non-negative and is the number of items on all preceding pages, so the query
returns the rows after the first `(Page - 1) * Limit` in order, at most
`Limit` of them; and the response's pagination echoes `CurrentPage = Page`,
`ItemsPerPage = Limit` and `TotalItems` = the count of the store. -/
theorem C8_pagination (implDep : F64 → Int) (unicodeLower : Char → Char) (userID : Int)
    (req : TransactionListRequest) (r : RepoResult)
    (hP : 1 ≤ req.Page) (hL : 1 ≤ req.Limit) (hfit : (req.Page - 1) * req.Limit ≤ maxInt64) :
    (buildQueries unicodeLower userID req).baseQuery
        = (filterState userID req).baseQuery ++ sortClause req.SortBy
          ++ directionClause unicodeLower req.SortOrder
          ++ (" LIMIT " ++ fmtInt req.Limit ++ " OFFSET " ++ fmtInt ((req.Page - 1) * req.Limit))
    ∧ 0 ≤ (req.Page - 1) * req.Limit
    ∧ (List.replicate (req.Page - 1).toNat req.Limit).sum = (req.Page - 1) * req.Limit
    ∧ (∀ (like : String → String → Bool) (store : Store),
        dataResult like store (planOf unicodeLower req)
            (buildQueries unicodeLower userID req).params
          = Except.ok (((sortRows (planOf unicodeLower req)
              (selectedRows like store (planOf unicodeLower req)
                (buildQueries unicodeLower userID req).params)).drop
                ((req.Page - 1) * req.Limit).toNat).take req.Limit.toNat))
    ∧ (r.err = none →
        (serviceOfRepo implDep req r).response
          = some { Transactions := r.transactions,
                   Pagination := { CurrentPage := req.Page,
                                   TotalPages := totalPages implDep r.totalItems req.Limit,
                                   TotalItems := r.totalItems,
                                   ItemsPerPage := req.Limit } }) := by
  obtain ⟨hoff, h0⟩ := pageOffset_eq req hP hL hfit
  refine ⟨?_, h0, ?_, ?_, ?_⟩
  · show _ ++ paginationClause req = _
    unfold paginationClause
    rw [hoff]
  · rw [List.sum_replicate, nsmul_eq_mul]
    have : (((req.Page - 1).toNat : ℕ) : ℤ) = req.Page - 1 := Int.toNat_of_nonneg (by omega)
    rw [this]
  · intro like store
    unfold dataResult
    have hl : ¬ (planOf unicodeLower req).limit < 0 := by
      show ¬ req.Limit < 0
      omega
    have ho : ¬ (planOf unicodeLower req).offset < 0 := by
      show ¬ pageOffset req < 0
      rw [hoff]; omega
    rw [if_neg hl, if_neg ho]
    show Except.ok (((sortRows _ _).drop (pageOffset req).toNat).take req.Limit.toNat) = _
    rw [hoff]
  · intro hok
    simp only [serviceOfRepo, hok]

set_option maxRecDepth 100000 in
/-- C8 at `page = 2`, `limit = 10` with 25 matching rows: `LIMIT 10 OFFSET 10`
and pagination `2, 3, 25, 10`. -/
theorem C8_pagination_witness :
    (buildQueries id 7 pageTwoRequest).baseQuery
        = (filterState 7 pageTwoRequest).baseQuery ++ " ORDER BY t.created_at"
          ++ " DESC" ++ " LIMIT 10 OFFSET 10"
    ∧ (serviceOfRepo amd64Conv pageTwoRequest
          { transactions := none, totalItems := 25, err := none, events := [] }).response
        = some { Transactions := none,
                 Pagination := { CurrentPage := 2, TotalPages := 3, TotalItems := 25,
                                 ItemsPerPage := 10 } } := by
  have h := C8_pagination amd64Conv id 7 pageTwoRequest
    { transactions := none, totalItems := 25, err := none, events := [] }
    (by decide) (by decide) (by decide)
  have h3 : totalPages amd64Conv 25 10 = 3 := by
    rw [totalPages_eq_ceil amd64Conv 25 10 (by norm_num) (by norm_num) (by norm_num)
      (by unfold maxInt64; norm_num), Int.ceil_eq_iff]
    norm_num
  refine ⟨?_, ?_⟩
  · rw [h.1]; decide
  · have h5 := h.2.2.2.2 rfl
    simp only [pageTwoRequest, h3] at h5
    exact h5

/-- C8 fails as stated: `page = 2^32 + 1`, `limit = 2^31` are both at least 1,
yet `(Page - 1) * Limit` is `2^63`, which wraps: the data query ends with a
negative `OFFSET`. -/
theorem C8_counterexample :
    pageOffset overflowRequest
        = -9223372036854775808
    ∧ paginationClause overflowRequest
        = " LIMIT 2147483648 OFFSET -9223372036854775808"
    ∧ ¬ (0 ≤ pageOffset overflowRequest)
    ∧ pageOffset overflowRequest
        ≠ (4294967297 - 1) * 2147483648 := by
  refine ⟨by decide, by decide, by decide, by decide⟩

set_option maxRecDepth 100000 in
theorem pageTwo_items :
    (dataResult likeAll twentyFiveStore (planOf id pageTwoRequest)
        (buildQueries id 7 pageTwoRequest).params).toOption.map
        (fun rows => rows.map (fun r => r.base.t.id))
      = some [15, 14, 13, 12, 11, 10, 9, 8, 7, 6] := by
  decide

/-! ## Failures of the store (C9) -/

/-- A failed count query: nothing else runs, and the error is returned with
no transactions and a count of 0. -/
theorem repo_count_error (unicodeLower : Char → Char) (db : DB) (userID : Int)
    (req : TransactionListRequest) (e : GoError)
    (h : db.queryRowScan (buildQueries unicodeLower userID req).countQuery
      (buildQueries unicodeLower userID req).params = Except.error e) :
    repoListTransactions unicodeLower db userID req
      = { transactions := none, totalItems := 0, err := some e,
          events := [Event.countQuery (buildQueries unicodeLower userID req).countQuery
            (buildQueries unicodeLower userID req).params] } := by
  unfold repoListTransactions
  simp only [h]

/-- A failed data query: the error is returned with no transactions and a
count of 0. -/
theorem repo_query_error (unicodeLower : Char → Char) (db : DB) (userID : Int)
    (req : TransactionListRequest) (n : Int) (e : GoError)
    (hc : db.queryRowScan (buildQueries unicodeLower userID req).countQuery
      (buildQueries unicodeLower userID req).params = Except.ok n)
    (h : db.query (buildQueries unicodeLower userID req).baseQuery
      (buildQueries unicodeLower userID req).params = Except.error e) :
    (repoListTransactions unicodeLower db userID req).transactions = none
    ∧ (repoListTransactions unicodeLower db userID req).totalItems = 0
    ∧ (repoListTransactions unicodeLower db userID req).err = some e := by
  unfold repoListTransactions
  simp only [hc, h, and_self]

theorem scanLoop_error (scans : List (Except GoError ScannedRow)) (e : GoError)
    (pre : List ScannedRow) (post : List (Except GoError ScannedRow))
    (h : scans = pre.map Except.ok ++ Except.error e :: post) :
    ∀ acc, scanLoop scans acc = Except.error e := by
  subst h
  induction pre with
  | nil => intro acc; rfl
  | cons r rest ih => intro acc; exact ih _

/-- A failed `Scan` of any row: the error is returned with no transactions
and a count of 0. -/
theorem repo_scan_error (unicodeLower : Char → Char) (db : DB) (userID : Int)
    (req : TransactionListRequest) (n : Int) (rows : Rows) (e : GoError)
    (pre : List ScannedRow) (post : List (Except GoError ScannedRow))
    (hc : db.queryRowScan (buildQueries unicodeLower userID req).countQuery
      (buildQueries unicodeLower userID req).params = Except.ok n)
    (hq : db.query (buildQueries unicodeLower userID req).baseQuery
      (buildQueries unicodeLower userID req).params = Except.ok rows)
    (h : rows.scans = pre.map Except.ok ++ Except.error e :: post) :
    (repoListTransactions unicodeLower db userID req).transactions = none
    ∧ (repoListTransactions unicodeLower db userID req).totalItems = 0
    ∧ (repoListTransactions unicodeLower db userID req).err = some e := by
  unfold repoListTransactions
  simp only [hc, hq, scanLoop_error rows.scans e pre post h, and_self]

/-- An error of the repository passes through the service unchanged, with a
nil response. -/
theorem service_error (implDep : F64 → Int) (req : TransactionListRequest) (r : RepoResult)
    (e : GoError) (h : r.err = some e) :
    (serviceOfRepo implDep req r).response = none ∧ (serviceOfRepo implDep req r).err = some e := by
  unfold serviceOfRepo
  simp only [h, and_self]

/-- An error of the service is answered with HTTP 500 and one fixed body. -/
theorem handler_error (service : Int → TransactionListRequest → ServiceResult) (userID : Int)
    (req : TransactionListRequest) (e : GoError)
    (hstart : req.StartDate = "" ∨ (timeParse req.StartDate).isSome)
    (hend : req.EndDate = "" ∨ (timeParse req.EndDate).isSome)
    (h : (service userID (applyDefaults req)).err = some e) :
    (handlerListTransactions service userID (Except.ok req)).status = 500
    ∧ (handlerListTransactions service userID (Except.ok req)).body
        = Body.error "Failed to fetch transactions" := by
  have hs : ¬ (req.StartDate ≠ "" ∧ (timeParse req.StartDate).isNone = true) := by
    rintro ⟨ha, hb⟩
    rcases hstart with h | h
    · exact ha h
    · rw [Option.isNone_iff_eq_none] at hb
      rw [hb] at h; simp at h
  have he : ¬ (req.EndDate ≠ "" ∧ (timeParse req.EndDate).isNone = true) := by
    rintro ⟨ha, hb⟩
    rcases hend with h | h
    · exact ha h
    · rw [Option.isNone_iff_eq_none] at hb
      rw [hb] at h; simp at h
  simp only [handlerListTransactions]
  rw [if_neg hs, if_neg he]
  simp only [h, and_self]

set_option maxRecDepth 100000 in
/-- C9 fails on the code: when the result set breaks after two rows
(`rows.Next()` returns false with `rows.Err()` set), the repository returns
those two transactions and the count with a nil error, the service builds a
response from them, and the handler answers HTTP 200 with the partial list. -/
theorem C9_partial_results_on_iteration_error :
    (repoListTransactions id brokenStreamDB 7 plainRequest).err = none
    ∧ (repoListTransactions id brokenStreamDB 7 plainRequest).transactions
        = some [rowToTransaction sampleRowA, rowToTransaction sampleRowB]
    ∧ (repoListTransactions id brokenStreamDB 7 plainRequest).totalItems = 3
    ∧ (serviceListTransactions amd64Conv id brokenStreamDB 7 plainRequest).err = none
    ∧ (handlerListTransactions (serviceListTransactions amd64Conv id brokenStreamDB) 7
        (Except.ok plainRequest)).status = 200 := by
  refine ⟨by decide, by decide, by decide, by decide, by decide⟩

/-! ## Empty results (C10) -/

theorem totalPages_zero_zero (implDep : F64 → Int) :
    totalPages implDep 0 0 = implDep F64.nan := by
  have h0 : F64.ofInt 0 = F64.fin 0 := by
    unfold F64.ofInt
    rw [Int.cast_zero, F64.ofRat_eq_fin, roundF64_zero]
    rw [roundF64_zero]; norm_num
  unfold totalPages
  rw [h0]
  simp [F64.div, F64.ceil, F64.toInt]

/-- C10 (as amended): for every request with `Limit ≥ 1` whose filter matches
no rows (the count is 0 and the data query yields no rows and no error), the
repository returns the nil slice, of length 0, with a nil error and a count
of 0; and the service returns a non-error response whose `Transactions` is
that nil slice and whose pagination has `TotalItems = 0` and
`TotalPages = 0`. -/
theorem C10_empty_result (implDep : F64 → Int) (unicodeLower : Char → Char) (db : DB)
    (userID : Int) (req : TransactionListRequest) (rows : Rows)
    (hcount : db.queryRowScan (buildQueries unicodeLower userID req).countQuery
      (buildQueries unicodeLower userID req).params = Except.ok 0)
    (hdata : db.query (buildQueries unicodeLower userID req).baseQuery
      (buildQueries unicodeLower userID req).params = Except.ok rows)
    (hrows : rows.scans = []) (_hiter : rows.iterErr = none)
    (hL1 : 1 ≤ req.Limit) (hL : req.Limit ≤ maxInt64) :
    (repoListTransactions unicodeLower db userID req).transactions = none
    ∧ GoSlice.len (repoListTransactions unicodeLower db userID req).transactions = 0
    ∧ (repoListTransactions unicodeLower db userID req).err = none
    ∧ (repoListTransactions unicodeLower db userID req).totalItems = 0
    ∧ (serviceListTransactions implDep unicodeLower db userID req).err = none
    ∧ (serviceListTransactions implDep unicodeLower db userID req).response
        = some { Transactions := none,
                 Pagination := { CurrentPage := req.Page, TotalPages := 0, TotalItems := 0,
                                 ItemsPerPage := req.Limit } } := by
  have hrepo : repoListTransactions unicodeLower db userID req
      = { transactions := none, totalItems := 0, err := none,
          events := [Event.countQuery (buildQueries unicodeLower userID req).countQuery
              (buildQueries unicodeLower userID req).params,
            Event.dataQuery (buildQueries unicodeLower userID req).baseQuery
              (buildQueries unicodeLower userID req).params] } := by
    unfold repoListTransactions
    simp only [hcount, hdata, hrows, scanLoop]
  have htp : totalPages implDep 0 req.Limit = 0 := by
    rw [totalPages_eq_ceil implDep 0 req.Limit (le_refl 0) (by norm_num) hL1 hL]
    simp
  unfold serviceListTransactions
  rw [hrepo]
  refine ⟨rfl, rfl, rfl, rfl, rfl, ?_⟩
  simp only [serviceOfRepo, htp]

/-- C10 over a store in which nothing matches. -/
theorem C10_empty_result_witness :
    (repoListTransactions id emptyDB 7 plainRequest).transactions = none
    ∧ (serviceListTransactions amd64Conv id emptyDB 7 plainRequest).response
        = some { Transactions := none,
                 Pagination := { CurrentPage := 1, TotalPages := 0, TotalItems := 0,
                                 ItemsPerPage := 10 } } :=
  ⟨(C10_empty_result amd64Conv id emptyDB 7 plainRequest { scans := [], iterErr := none }
      rfl rfl rfl rfl (by decide) (by unfold maxInt64; decide)).1,
    (C10_empty_result amd64Conv id emptyDB 7 plainRequest { scans := [], iterErr := none }
      rfl rfl rfl rfl (by decide) (by unfold maxInt64; decide)).2.2.2.2.2⟩

set_option maxRecDepth 100000 in
/-- C10 fails as stated: over a store in which nothing matches, the
repository returns the nil slice, not a non-nil empty one; and for a request
with `Limit = 0` the quotient is `0 / 0`, so `TotalPages` is the platform's
conversion of NaN, which on amd64 is the least `int`, not 0. -/
theorem C10_counterexample :
    (repoListTransactions id emptyDB 7 plainRequest).transactions = none
    ∧ (repoListTransactions id emptyDB 7 plainRequest).transactions ≠ some []
    ∧ (serviceListTransactions amd64Conv id emptyDB 7 zeroLimitRequest).response
        = some { Transactions := none,
                 Pagination := { CurrentPage := 1, TotalPages := -9223372036854775808,
                                 TotalItems := 0, ItemsPerPage := 0 } } := by
  refine ⟨by decide, by decide, ?_⟩
  have h : totalPages amd64Conv 0 0 = -9223372036854775808 := by
    rw [totalPages_zero_zero]; rfl
  simp only [serviceListTransactions, serviceOfRepo, repoListTransactions, emptyDB, scanLoop,
    zeroLimitRequest, h]

/-! ## Parameters and placeholders (C11) -/

theorem scanPlaceholders_append_sep (c : Char) (hd : c ≠ '$') (hg : isDigit c = false)
    (Y : List Char) :
    ∀ (X : List Char) (st : ScanState),
      scanPlaceholders st (X ++ c :: Y)
        = scanPlaceholders st (X ++ [c]) ++ scanPlaceholders none Y := by
  intro X
  induction X with
  | nil =>
    intro st
    simp [scanPlaceholders, hd, hg, flushPlaceholder]
  | cons x X' ih =>
    intro st
    simp only [List.cons_append, scanPlaceholders, List.append_eq]
    split_ifs
    · rw [ih, List.append_assoc]
    · rw [ih]
    · rw [ih, List.append_assoc]

theorem scanPlaceholders_no_dollar (X : List Char) (h : ∀ c ∈ X, c ≠ '$') :
    scanPlaceholders none X = [] := by
  induction X with
  | nil => rfl
  | cons x X' ih =>
    have hx : x ≠ '$' := h x (List.mem_cons_self _ _)
    have ih := ih (fun c hc => h c (List.mem_cons_of_mem _ hc))
    simp only [scanPlaceholders, if_neg hx]
    split_ifs
    · exact ih
    · simpa [flushPlaceholder] using ih

theorem fmtInt_ne_dollar (n : Int) : ∀ c ∈ (fmtInt n).toList, c ≠ '$' := by
  intro c hc
  rcases fmtInt_chars n c hc with h | h
  · intro e; rw [e] at h; exact absurd h (by decide)
  · rw [h]; decide

/-- The text after the filter conditions of the data query, less its first
blank, holds no `$`. -/
theorem tail_no_dollar (col : SortColumn) (d : Direction) (limit offset : Int) :
    ∀ c ∈ ("ORDER BY " ++ col.sql).toList ++ (d.sql.toList
        ++ (" LIMIT " ++ fmtInt limit ++ " OFFSET " ++ fmtInt offset).toList), c ≠ '$' := by
  intro c hc
  simp only [String.toList, String.data_append, List.mem_append] at hc
  rcases hc with (h | h) | h | ((h | h) | h) | h
  · revert c; decide
  · cases col <;> (revert c; decide)
  · cases d <;> (revert c; decide)
  · revert c; decide
  · exact fmtInt_ne_dollar limit c h
  · revert c; decide
  · exact fmtInt_ne_dollar offset c h

theorem filterState_params (userID : Int) (req : TransactionListRequest) :
    (filterState userID req).params = Param.int userID :: appendedParams req := by
  unfold filterState addEndDate addStartDate addSearch initState appendedParams
  by_cases h1 : req.Search = "" <;> by_cases h2 : req.StartDate = ""
    <;> by_cases h3 : req.EndDate = ""
    <;> cases h4 : timeParse req.StartDate <;> cases h5 : timeParse req.EndDate
    <;> simp [h1, h2, h3, h4, h5]

theorem appendedParams_length (req : TransactionListRequest) :
    (appendedParams req).length = (filtersOf req).length := by
  unfold appendedParams filtersOf searchConds startConds endConds
  by_cases h1 : req.Search = "" <;> by_cases h2 : req.StartDate = ""
    <;> by_cases h3 : req.EndDate = ""
    <;> cases h4 : timeParse req.StartDate <;> cases h5 : timeParse req.EndDate
    <;> simp [h1, h2, h3, h4, h5]

theorem filters_numbers (req : TransactionListRequest) :
    (filtersOf req).map Cond.number
      = (List.range (filtersOf req).length).map (fun k => (k : Int) + 2) := by
  rcases filtersOf_cases req with h | h | h | h | h | h | h | h <;> rw [h] <;> decide

theorem filters_bound (userID : Int) (req : TransactionListRequest) :
    (filtersOf req).map (fun c => placeholder (filterState userID req).params c.number)
      = (appendedParams req).map some := by
  rw [filterState_params]
  unfold appendedParams filtersOf searchConds startConds endConds placeholder
  by_cases h1 : req.Search = "" <;> by_cases h2 : req.StartDate = ""
    <;> by_cases h3 : req.EndDate = ""
    <;> cases h4 : timeParse req.StartDate <;> cases h5 : timeParse req.EndDate
    <;> simp [h1, h2, h3, h4, h5, Cond.number]

theorem filters_kind (req : TransactionListRequest) :
    (filtersOf req).map (fragmentParam req) = (appendedParams req).map some := by
  unfold appendedParams filtersOf searchConds startConds endConds
  by_cases h1 : req.Search = "" <;> by_cases h2 : req.StartDate = ""
    <;> by_cases h3 : req.EndDate = ""
    <;> cases h4 : timeParse req.StartDate <;> cases h5 : timeParse req.EndDate
    <;> simp [h1, h2, h3, h4, h5, fragmentParam]

theorem filters_text (req : TransactionListRequest) :
    (filtersOf req).map (fun c => placeholdersIn c.sql)
      = (filtersOf req).map (fun c => [c.number.toNat]) := by
  rcases filtersOf_cases req with h | h | h | h | h | h | h | h <;> rw [h] <;> decide

set_option maxRecDepth 100000 in
theorem placeholdersIn_countQuery (unicodeLower : Char → Char) (userID : Int)
    (req : TransactionListRequest) :
    placeholdersIn (buildQueries unicodeLower userID req).countQuery
      = 1 :: List.range' 1 ((filtersOf req).length + 1) := by
  have hc : (buildQueries unicodeLower userID req).countQuery
      = countQueryInit ++ String.join ((filtersOf req).map Cond.sql) :=
    (filterState_eq userID req).2.1
  rw [hc]
  rcases filtersOf_cases req with h | h | h | h | h | h | h | h <;> rw [h] <;> decide

set_option maxRecDepth 100000 in
theorem placeholdersIn_head (req : TransactionListRequest) :
    scanPlaceholders none
        ((baseQueryInit ++ String.join ((filtersOf req).map Cond.sql)).toList ++ [' '])
      = 1 :: List.range' 1 ((filtersOf req).length + 1) := by
  rcases filtersOf_cases req with h | h | h | h | h | h | h | h <;> rw [h] <;> decide

theorem placeholdersIn_baseQuery (unicodeLower : Char → Char) (userID : Int)
    (req : TransactionListRequest) :
    placeholdersIn (buildQueries unicodeLower userID req).baseQuery
      = 1 :: List.range' 1 ((filtersOf req).length + 1) := by
  have hb := (buildQueries_sql unicodeLower userID req).1
  have e : (buildQueries unicodeLower userID req).baseQuery.toList
      = (baseQueryInit ++ String.join ((filtersOf req).map Cond.sql)).toList
        ++ ' ' :: (("ORDER BY " ++ (sortColumnOf req.SortBy).sql).toList
          ++ ((directionOf unicodeLower req.SortOrder).sql.toList
          ++ (" LIMIT " ++ fmtInt req.Limit ++ " OFFSET " ++ fmtInt (pageOffset req)).toList)) := by
    rw [hb]
    simp only [Plan.dataSQL, Plan.filterSQL, planOf, String.toList, String.data_append,
      List.append_assoc]
    rfl
  unfold placeholdersIn
  rw [e, scanPlaceholders_append_sep ' ' (by decide) (by decide), placeholdersIn_head,
    scanPlaceholders_no_dollar _ (tail_no_dollar _ _ _ _), List.append_nil]

theorem addStartDate_invalid (req : TransactionListRequest) (h : timeParse req.StartDate = none)
    (st : QueryState) : addStartDate req st = st := by
  unfold addStartDate
  rw [h]
  split_ifs <;> rfl

theorem addEndDate_invalid (req : TransactionListRequest) (h : timeParse req.EndDate = none)
    (st : QueryState) : addEndDate req st = st := by
  unfold addEndDate
  rw [h]
  split_ifs <;> rfl

theorem buildQueries_invalid_start (unicodeLower : Char → Char) (userID : Int)
    (req : TransactionListRequest) (h : timeParse req.StartDate = none) :
    buildQueries unicodeLower userID req
      = buildQueries unicodeLower userID { req with StartDate := "" } := by
  simp only [buildQueries, filterState, addStartDate_invalid req h]
  rw [addStartDate_invalid { req with StartDate := "" } timeParse_empty]
  rfl

theorem buildQueries_invalid_end (unicodeLower : Char → Char) (userID : Int)
    (req : TransactionListRequest) (h : timeParse req.EndDate = none) :
    buildQueries unicodeLower userID req
      = buildQueries unicodeLower userID { req with EndDate := "" } := by
  simp only [buildQueries, filterState, addEndDate_invalid req h]
  rw [addEndDate_invalid { req with EndDate := "" } timeParse_empty]
  rfl

/-- C11: for every `userID` and request the parameter list is `userID`
followed, in this order, by the search pattern iff `Search` is non-empty, the
parsed `StartDate` iff it is non-empty and parses, and the parsed `EndDate`
plus 24 hours iff it is non-empty and parses; the placeholders occurring in
each query are `$1` (twice, in the ownership predicate) and then `$2 .. $n`
once each in order, `n` the length of the list, so exactly `$1 .. $n`; the
k-th appended fragment names placeholder `k + 1`, which is bound to the k-th
appended parameter, the one its condition is about; and a date that does not
parse adds neither a fragment nor a parameter and leaves the repository's
result what it is for an empty date, so raises no error. -/
theorem C11_params_match_fragments (unicodeLower : Char → Char) (db : DB) (userID : Int)
    (req : TransactionListRequest) :
    (buildQueries unicodeLower userID req).params = Param.int userID :: appendedParams req
    ∧ (buildQueries unicodeLower userID req).countQuery
        = countQueryInit ++ String.join ((filtersOf req).map Cond.sql)
    ∧ (buildQueries unicodeLower userID req).baseQuery
        = baseQueryInit ++ String.join ((filtersOf req).map Cond.sql)
          ++ sortClause req.SortBy ++ directionClause unicodeLower req.SortOrder
          ++ paginationClause req
    ∧ (filtersOf req).length = (appendedParams req).length
    ∧ placeholdersIn (buildQueries unicodeLower userID req).countQuery
        = 1 :: List.range' 1 (buildQueries unicodeLower userID req).params.length
    ∧ placeholdersIn (buildQueries unicodeLower userID req).baseQuery
        = 1 :: List.range' 1 (buildQueries unicodeLower userID req).params.length
    ∧ (∀ k : Nat, k ∈ placeholdersIn (buildQueries unicodeLower userID req).baseQuery
        ↔ 1 ≤ k ∧ k ≤ (buildQueries unicodeLower userID req).params.length)
    ∧ (∀ k : Nat, k ∈ placeholdersIn (buildQueries unicodeLower userID req).countQuery
        ↔ 1 ≤ k ∧ k ≤ (buildQueries unicodeLower userID req).params.length)
    ∧ (filtersOf req).map Cond.number
        = (List.range (filtersOf req).length).map (fun k => (k : Int) + 2)
    ∧ (filtersOf req).map (fun c => placeholdersIn c.sql)
        = (filtersOf req).map (fun c => [c.number.toNat])
    ∧ (filtersOf req).map
          (fun c => placeholder (buildQueries unicodeLower userID req).params c.number)
        = (appendedParams req).map some
    ∧ (filtersOf req).map (fragmentParam req) = (appendedParams req).map some
    ∧ (req.StartDate ≠ "" → timeParse req.StartDate = none →
        (∀ st, addStartDate req st = st)
        ∧ repoListTransactions unicodeLower db userID req
            = repoListTransactions unicodeLower db userID { req with StartDate := "" })
    ∧ (req.EndDate ≠ "" → timeParse req.EndDate = none →
        (∀ st, addEndDate req st = st)
        ∧ repoListTransactions unicodeLower db userID req
            = repoListTransactions unicodeLower db userID { req with EndDate := "" }) := by
  have hp : (buildQueries unicodeLower userID req).params
      = Param.int userID :: appendedParams req := filterState_params userID req
  have hlen : (buildQueries unicodeLower userID req).params.length
      = (filtersOf req).length + 1 := by
    rw [hp, List.length_cons, appendedParams_length]
  have hmem : ∀ (l : List Nat) (n : Nat), l = 1 :: List.range' 1 n → 1 ≤ n →
      ∀ k : Nat, k ∈ l ↔ 1 ≤ k ∧ k ≤ n := by
    intro l n hl hn k
    rw [hl, List.mem_cons, List.mem_range'_1]
    omega
  have hb := placeholdersIn_baseQuery unicodeLower userID req
  have hc := placeholdersIn_countQuery unicodeLower userID req
  rw [← hlen] at hb hc
  refine ⟨hp, (filterState_eq userID req).2.1, ?_, (appendedParams_length req).symm, hc, hb,
    hmem _ _ hb (by omega), hmem _ _ hc (by omega), filters_numbers req, filters_text req,
    filters_bound userID req, filters_kind req, ?_, ?_⟩
  · show (filterState userID req).baseQuery ++ sortClause req.SortBy
        ++ directionClause unicodeLower req.SortOrder ++ paginationClause req = _
    rw [(filterState_eq userID req).1]
  · intro _ h
    refine ⟨addStartDate_invalid req h, ?_⟩
    unfold repoListTransactions
    rw [buildQueries_invalid_start unicodeLower userID req h]
  · intro _ h
    refine ⟨addEndDate_invalid req h, ?_⟩
    unfold repoListTransactions
    rw [buildQueries_invalid_end unicodeLower userID req h]

set_option maxRecDepth 100000 in
/-- C11 at a request with a search text and both dates: three parameters
after `userID`, placeholders `$1 .. $4`. -/
theorem C11_params_match_fragments_witness :
    (buildQueries id 7 fullRequest).params = Param.int 7 :: appendedParams fullRequest
    ∧ appendedParams fullRequest
        = [Param.str "%lunch%", Param.time (midnight 2024 1 1),
            Param.time (midnight 2024 1 31 + 24 * hour)]
    ∧ placeholdersIn (buildQueries id 7 fullRequest).baseQuery = [1, 1, 2, 3, 4]
    ∧ (timeParse badStartRequest.StartDate = none
        ∧ (buildQueries id 7 badStartRequest).params
            = [Param.int 7, Param.str "%lunch%", Param.time (midnight 2024 1 31 + 24 * hour)]) :=
  ⟨(C11_params_match_fragments id downDB 7 fullRequest).1, by decide, by decide, by decide,
    by decide⟩

/-! ## Mapping rows to transactions (C12) -/

/-- Every field but `FromWalletID` is the scanned column, and
`FromWalletNumber` is the wallet number when it is not null and unset (the
empty string) when it is. -/
theorem rowToTransaction_fields (r : ScannedRow) :
    (rowToTransaction r).ID = r.id
    ∧ (rowToTransaction r).ToWalletID = r.toWalletID
    ∧ (rowToTransaction r).Amount = r.amount
    ∧ (rowToTransaction r).Description = r.description
    ∧ (rowToTransaction r).SourceOfFundID = r.sourceOfFundID
    ∧ (rowToTransaction r).TransactionType = r.transactionType
    ∧ (rowToTransaction r).CreatedAt = r.createdAt
    ∧ (rowToTransaction r).ToWalletNumber = r.toWalletNumber
    ∧ (rowToTransaction r).RecipientName = r.recipientName
    ∧ (r.fromWalletNumber = none → (rowToTransaction r).FromWalletNumber = "")
    ∧ (∀ n, r.fromWalletNumber = some n → (rowToTransaction r).FromWalletNumber = n) := by
  refine ⟨rfl, rfl, rfl, rfl, rfl, rfl, rfl, rfl, rfl, ?_, ?_⟩
  · intro h; simp [rowToTransaction, h]
  · intro n h; simp [rowToTransaction, h]

/-- The mapped `FromWalletID` is nil for every row, whatever its
`from_wallet_id`. -/
theorem rowToTransaction_fromWalletID (r : ScannedRow) :
    (rowToTransaction r).FromWalletID = none := rfl

/-- A result set whose rows all scan is mapped row by row, in order. -/
theorem scanLoop_ok (rows : List ScannedRow) :
    ∀ acc : GoSlice Transaction,
      scanLoop (rows.map Except.ok) acc
        = Except.ok (if rows = [] then acc
            else some (acc.getD [] ++ rows.map rowToTransaction)) := by
  induction rows with
  | nil => intro acc; rfl
  | cons r rest ih =>
    intro acc
    simp only [List.map_cons, scanLoop, ih, GoSlice.append]
    by_cases h : rest = []
    · subst h; simp
    · simp [h]

/-- The transactions of a successful listing are the rows of the data query,
mapped in order. -/
theorem repo_rows_in_order (unicodeLower : Char → Char) (db : DB) (userID : Int)
    (req : TransactionListRequest) (n : Int) (rows : Rows) (scanned : List ScannedRow)
    (hc : db.queryRowScan (buildQueries unicodeLower userID req).countQuery
      (buildQueries unicodeLower userID req).params = Except.ok n)
    (hq : db.query (buildQueries unicodeLower userID req).baseQuery
      (buildQueries unicodeLower userID req).params = Except.ok rows)
    (h : rows.scans = scanned.map Except.ok) :
    (repoListTransactions unicodeLower db userID req).err = none
    ∧ (repoListTransactions unicodeLower db userID req).transactions.getD []
        = scanned.map rowToTransaction := by
  unfold repoListTransactions
  simp only [hc, hq, h, scanLoop_ok]
  by_cases he : scanned = []
  · subst he; simp
  · simp [he]

set_option maxRecDepth 100000 in
/-- C12 fails on the code: a row whose `from_wallet_id` is 1, not null, is
mapped to a transaction whose `FromWalletID` is nil, while its
`FromWalletNumber` carries the wallet number; the destination
`fromWalletID` of `rows.Scan` is never copied into the transaction. -/
theorem C12_from_wallet_id_dropped :
    sampleRowB.fromWalletID = some "1"
    ∧ (rowToTransaction sampleRowB).FromWalletID = none
    ∧ (rowToTransaction sampleRowB).FromWalletNumber = "W-1"
    ∧ (repoListTransactions id twoRowDB 7 plainRequest).err = none
    ∧ ((repoListTransactions id twoRowDB 7 plainRequest).transactions.getD []).map
          (fun t => t.FromWalletID)
        = [none, none]
    ∧ ((repoListTransactions id twoRowDB 7 plainRequest).transactions.getD []).map
          (fun t => t.FromWalletNumber)
        = ["", "W-1"] := by
  refine ⟨rfl, rfl, rfl, by decide, by decide, by decide⟩

end EWallet
